import Mathlib

/-!
# Booking flow of the EV charging client (`BookingModal.jsx`)

A shallow embedding of the booking modal of the client:

* the component state (one field per `useState` cell) and the event handlers
  `handleBooking`, `loadSubscriptionInfo`, `handlePayment`, the slot cell's `onClick`,
  the Back button and the effect run when the modal opens or closes;
* the view-model computation of the slot table (`slotsByDateAndHour`, `dates`,
  `generateTimeSlots` and the table body);
* the amount (`calculateAmount`) and the formatting of the card number and of the
  expiry date (`formatCardNumber`, `formatExpiry`).

Conventions of the embedding.

* A handler is a function of the state captured by the render in which the handler
  was created (its closure) and of the outcomes of the remote calls it awaits. It
  returns the state after all its `setX` calls have been applied, together with the
  list of remote calls it made, in order. A *read* of a state variable inside a
  handler is a read of the captured state, also after an `await`: React state
  variables are `const` bindings of one render.
* Timestamps are instants in milliseconds since the epoch (`Int`). The local time
  zone is a `Zone`: the offset of local time from UTC as a function of the instant
  (it changes with daylight saving time), and the engine's reading of a date key.
* The string produced by `Date.prototype.toDateString` names a local calendar day
  and nothing else; it is represented by the number of that day (days since the
  epoch, local time). `new Date(key)` of such a string is what the engine's parser
  makes of the text (`Zone.parse`); in V8 and SpiderMonkey that is local midnight of
  the day for a year of three or four digits and of a day of 1950 to 2049 for a year
  below 100 (`legacyParse`).
* A JavaScript object used as a dictionary is an association list in insertion
  order of its keys.
* A string is the list of its characters; its `length` counts UTF-16 code units.
* A JavaScript number is a double, represented by its exact value, a rational; an
  arithmetic operation returns the double nearest to its exact result (`toDouble`).
* Besides the handlers run to completion, the file has the component with its
  suspended calls (`Session`): a handler stops at each `await` and is resumed by the
  settlement of the call. Run one after the other, these events give the handlers.
* The rejection handler of the response interceptor of `api.js` is `onResponseError`.
-/

namespace BookingModal

/-! ## Data model -/

/-- The value of the `step` state cell: `'select'`, `'payment'` or `'subscription'`. -/
inductive Step where
  | select
  | payment
  | subscription
deriving DecidableEq, Repr

/-- One slot record of the slot list returned by the backend. -/
structure Slot where
  startTime : Int
  endTime : Int
  available : Bool
  past : Bool
deriving DecidableEq, Repr

/-- The booking record returned by `createBooking`. -/
structure Booking where
  id : Nat
  paymentStatus : String
  paymentMethod : String
deriving DecidableEq, Repr

/-- The object returned by `checkBookingLimit`. -/
structure SubscriptionInfo where
  hasSubscription : Bool
  canBook : Bool
  bookingsRemaining : Int
  bookingLimit : Int
deriving DecidableEq, Repr

/-- The `response` of a rejected request: `status` and `data?.message`. -/
structure Response where
  status : Nat
  dataMessage : Option String
deriving DecidableEq, Repr

/-- A rejection of a remote call: `err.response` (absent for a transport failure) and
`err.message`. -/
structure ApiError where
  response : Option Response
  message : String
deriving DecidableEq, Repr

/-- The argument object of `createBooking`. -/
structure BookingRequest where
  portId : Nat
  startTime : Int
  endTime : Int
  paymentMethod : String
deriving DecidableEq, Repr

/-- The remote calls a handler can make, and the two callbacks of the host page
(`onSuccess`, `onClose`) it can invoke. -/
inductive Call where
  | createBooking (req : BookingRequest)
  | checkBookingLimit
  | processPayment (bookingId : Nat) (paymentMethod : String)
  | getAvailableSlots (portId : Nat)
  | onSuccess
  | onClose
deriving DecidableEq, Repr

/-- The state cells of the component (`useState`, lines 5 to 17). -/
structure State where
  slots : List Slot
  selectedSlot : Option Slot
  loading : Bool
  error : String
  loadingSlots : Bool
  step : Step
  booking : Option Booking
  paymentMethod : String
  cardNumber : String
  cardExpiry : String
  cardCVC : String
  cardholderName : String
  subscriptionInfo : Option SubscriptionInfo
deriving DecidableEq, Repr

/-- The initial values of the state cells. -/
def State.init : State where
  slots := []
  selectedSlot := none
  loading := false
  error := ""
  loadingSlots := false
  step := Step.select
  booking := none
  paymentMethod := "credit_card"
  cardNumber := ""
  cardExpiry := ""
  cardCVC := ""
  cardholderName := ""
  subscriptionInfo := none

/-- What a run of `handleBooking` finds outside the component: the port of the modal,
the stored access token (`localStorage.getItem('accessToken')`, `none` for `null`) and
the outcome of each remote call it may await. -/
structure Env where
  portId : Nat
  token : Option String
  createBooking : BookingRequest → Except ApiError Booking
  checkBookingLimit : Except ApiError SubscriptionInfo

/-! ## JavaScript truthiness -/

/-- Truthiness of a value that is `null`/`undefined` or a string: a non-empty string. -/
def truthyStr (v : Option String) : Bool :=
  match v with
  | some s => s != ""
  | none => false

/-- The operator `a || b` for `a` a string or `undefined` and `b` a string. -/
def orStr (a : Option String) (b : String) : String :=
  match a with
  | some s => if s != "" then s else b
  | none => b

/-- The truthiness of `subscriptionInfo?.hasSubscription`. -/
def hasSubscription? (info : Option SubscriptionInfo) : Bool :=
  match info with
  | some i => i.hasSubscription
  | none => false

/-! ## Event handlers -/

/-- The slot cell's `onClick`: `isAvailable && setSelectedSlot(slot)` with
`isAvailable = slot.available && !slot.past` (lines 430 and 443). -/
def selectSlot (st : State) (slot : Slot) : State :=
  let isAvailable := slot.available && !slot.past
  if isAvailable then { st with selectedSlot := some slot } else st

/-- The function `loadSubscriptionInfo` (lines 35 to 43), run on the current state. -/
def loadSubscriptionInfo (env : Env) (st : State) : State × List Call :=
  match env.checkBookingLimit with
  | .ok info => ({ st with subscriptionInfo := some info }, [Call.checkBookingLimit])
  | .error _ => ({ st with subscriptionInfo := none }, [Call.checkBookingLimit])

/-- The message set by the `catch` block of `handleBooking` (lines 109 to 114). -/
def bookingErrorMessage (err : ApiError) : String :=
  if (err.response.map (·.status)) == some 401 then
    "Your session has expired. Please log in again."
  else
    orStr (err.response.bind (·.dataMessage)) (orStr (some err.message) "Failed to create booking")

/-- The handler `handleBooking` (lines 78 to 118). `snap` is the state of the render
whose closure the handler is: every read of a state variable reads `snap`. -/
def handleBooking (env : Env) (snap : State) : State × List Call :=
  match snap.selectedSlot with
  | none => (snap, [])
  | some selectedSlot =>
    if !truthyStr env.token then
      ({ snap with error := "Please log in to create a booking" }, [])
    else
      let st1 := { snap with loading := true, error := "" }
      let req : BookingRequest :=
        { portId := env.portId
          startTime := selectedSlot.startTime
          endTime := selectedSlot.endTime
          paymentMethod := snap.paymentMethod }
      match env.createBooking req with
      | .ok newBooking =>
        let st2 := { st1 with booking := some newBooking }
        let r := loadSubscriptionInfo env st2
        let st3 :=
          if newBooking.paymentStatus == "paid" && hasSubscription? snap.subscriptionInfo then
            { r.1 with step := Step.subscription }
          else
            { r.1 with step := Step.payment }
        ({ st3 with loading := false }, Call.createBooking req :: r.2)
      | .error err =>
        let st2 := { st1 with error := bookingErrorMessage err }
        ({ st2 with loading := false }, [Call.createBooking req])

/-! ## Local time -/

/-- What the component takes from the engine and from its host about dates.

* `offset t` is local time minus UTC at the instant `t`, in milliseconds; it depends
  on the instant wherever the zone has daylight saving time.
* `parse key` is the time value of `new Date(key)` for the text `key` that
  `toDateString` produced, `none` for an invalid date. The language leaves the
  parsing of such a text to the engine. -/
structure Zone where
  offset : Int → Int
  parse : Int → Option Int

/-- The date key `new Date(t).toDateString()`: the text names the local calendar day
of the instant `t` and is represented by the number of that day. -/
def toDateString (z : Zone) (t : Int) : Int :=
  (t + z.offset t) / 86400000

/-- The local hour of day `new Date(t).getHours()` of the instant `t`, in `0..23`. -/
def getHours (z : Zone) (t : Int) : Int :=
  ((t + z.offset t) % 86400000) / 3600000

/-- The number of the day `day` of the month `month` of the year `year` of the
proleptic Gregorian calendar, counted from 1 January 1970. -/
def daysFromCivil (year month day : Int) : Int :=
  let y := if month ≤ 2 then year - 1 else year
  let era := y / 400
  let yoe := y - era * 400
  let mp := if month > 2 then month - 3 else month + 9
  let doy := (153 * mp + 2) / 5 + day - 1
  let doe := yoe * 365 + yoe / 4 - yoe / 100 + doy
  era * 146097 + doe - 719468

/-- The year, month and day of the day number `days`: the inverse of `daysFromCivil`. -/
def civilFromDays (days : Int) : Int × Int × Int :=
  let shifted := days + 719468
  let era := shifted / 146097
  let doe := shifted - era * 146097
  let yoe := (doe - doe / 1460 + doe / 36524 - doe / 146096) / 365
  let y := yoe + era * 400
  let doy := doe - (365 * yoe + yoe / 4 - yoe / 100)
  let mp := (5 * doy + 2) / 153
  let d := doy - (153 * mp + 2) / 5 + 1
  let m := if mp < 10 then mp + 3 else mp - 9
  (if m ≤ 2 then y + 1 else y, m, d)

/-- The instant of `hour`:00 UTC on the day `day` of the month `month` of the year
`year`, in milliseconds since the epoch. -/
def instantOf (year month day hour : Int) : Int :=
  daysFromCivil year month day * 86400000 + hour * 3600000

/-- The year that the date parser of V8 and of SpiderMonkey reads from the year
digits of a text like `Wed Jun 01 0050`: a value from 0 to 49 is read as a year of
the 2000s and a value from 50 to 99 as a year of the 1900s, whatever the number of
digits; a value from 100 to 9999 is the year itself. The text of another year has a
sign or more than four digits; its reading is not described here and no property of
this file depends on it: `none`. -/
def legacyYear (year : Int) : Option Int :=
  if 0 ≤ year ∧ year < 50 then some (2000 + year)
  else if 50 ≤ year ∧ year < 100 then some (1900 + year)
  else if 100 ≤ year ∧ year ≤ 9999 then some year
  else none

/-- The time value of `new Date(key)` in these engines: local midnight of the day
that the parser reads from the text, in a zone with the offsets `offset` whose
standard time has offset `standard`. -/
def legacyParse (offset : Int → Int) (standard : Int) (key : Int) : Option Int :=
  match civilFromDays key with
  | (year, month, day) =>
    match legacyYear year with
    | none => none
    | some parsedYear =>
      let localMidnight := daysFromCivil parsedYear month day * 86400000
      some (localMidnight - offset (localMidnight - standard))

/-- The zone `UTC` in such an engine. -/
def utc : Zone :=
  { offset := fun _ => 0, parse := legacyParse (fun _ => 0) 0 }

/-- The offsets of the zone `America/New_York` around the year 2026: daylight time
(four hours behind UTC) from 8 March 2026 07:00 UTC to 1 November 2026 06:00 UTC,
standard time (five hours behind) on both sides of it. -/
def newYorkOffset (t : Int) : Int :=
  if instantOf 2026 3 8 7 ≤ t ∧ t < instantOf 2026 11 1 6 then
    -4 * 3600000
  else
    -5 * 3600000

/-- The zone `America/New_York` around the year 2026 in such an engine. -/
def newYork : Zone :=
  { offset := newYorkOffset, parse := legacyParse newYorkOffset (-5 * 3600000) }

/-! ## JavaScript objects as dictionaries -/

/-- The read `o[k]`: `none` for `undefined`. -/
def objGet {κ ν : Type} [DecidableEq κ] (o : List (κ × ν)) (k : κ) : Option ν :=
  match o with
  | [] => none
  | (k', v) :: rest => if k' = k then some v else objGet rest k

/-- The write `o[k] = v`: an existing key keeps its place, a new key goes last. -/
def objSet {κ ν : Type} [DecidableEq κ] (o : List (κ × ν)) (k : κ) (v : ν) : List (κ × ν) :=
  match o with
  | [] => [(k, v)]
  | (k', v') :: rest => if k' = k then (k, v) :: rest else (k', v') :: objSet rest k v

/-- The keys `Object.keys(o)` of an object whose keys are no array indices: in
insertion order. -/
def objKeys {κ ν : Type} (o : List (κ × ν)) : List κ :=
  o.map Prod.fst

/-! ## The slot table -/

/-- The loop of `generateTimeSlots` (line 193) from `hour` on, pushing onto `acc`. Of
the pushed record `{ hour, timeStr }` the hour is kept; `timeStr` is its label in the
`en-US` locale. -/
def generateTimeSlotsLoop (hour : Int) (acc : List Int) : List Int :=
  if hour < 22 then generateTimeSlotsLoop (hour + 1) (acc ++ [hour]) else acc
termination_by (22 - hour).toNat
decreasing_by omega

/-- The function `generateTimeSlots` (lines 191 to 202): the rows of the table. -/
def generateTimeSlots : List Int :=
  generateTimeSlotsLoop 8 []

/-- One step of the `slots.forEach` of lines 208 to 217. -/
def groupSlot (z : Zone) (acc : List (Int × List (Int × Slot))) (slot : Slot) :
    List (Int × List (Int × Slot)) :=
  let dateKey := toDateString z slot.startTime
  let hour := getHours z slot.startTime
  let acc1 := if (objGet acc dateKey).isNone then objSet acc dateKey [] else acc
  objSet acc1 dateKey (objSet ((objGet acc1 dateKey).getD []) hour slot)

/-- The object `slotsByDateAndHour` (lines 207 to 217). -/
def slotsByDateAndHour (z : Zone) (slots : List Slot) : List (Int × List (Int × Slot)) :=
  slots.foldl (groupSlot z) []

/-- The comparator of line 221, `new Date(a) - new Date(b)`; `none` is `NaN`, the
difference when one of the two dates is invalid. -/
def compareDates (z : Zone) (a b : Int) : Option Int :=
  match z.parse a, z.parse b with
  | some ta, some tb => some (ta - tb)
  | _, _ => none

/-- Whether the sort leaves `a` before `b`: the comparator is negative or zero there,
and `Array.prototype.sort` reads a `NaN` as zero. -/
def keepsOrder (z : Zone) (a b : Int) : Bool :=
  match compareDates z a b with
  | some v => decide (v ≤ 0)
  | none => true

/-- The array `dates` (lines 220 to 222). `Array.prototype.sort` is a stable sort that
puts `a` before `b` when the comparator is negative and keeps their order when it is
zero; insertion sort is such a sort. -/
def dates (z : Zone) (slots : List Slot) : List Int :=
  (objKeys (slotsByDateAndHour z slots)).insertionSort (fun a b => keepsOrder z a b = true)

/-- The lookup `slotsByDateAndHour[date]?.[hour]` of line 424; `none` is the empty
cell of line 426 (a slot record is an object, hence truthy). -/
def lookupCell (byDateAndHour : List (Int × List (Int × Slot))) (date : Int) (hour : Int) :
    Option Slot :=
  (objGet byDateAndHour date).bind (fun byHour => objGet byHour hour)

/-- The content of the cell of column `date` and row `hour` for the slot list `slots`. -/
def cell (z : Zone) (slots : List Slot) (date : Int) (hour : Int) : Option Slot :=
  lookupCell (slotsByDateAndHour z slots) date hour

/-- The table body (lines 420 to 467): one row per entry of `timeSlots`, in each row
one cell per entry of `dates`. -/
def tableBody (z : Zone) (slots : List Slot) : List (Int × List (Int × Option Slot)) :=
  generateTimeSlots.map fun hour =>
    (hour, (dates z slots).map fun date => (date, cell z slots date hour))

/-- The slot `s` is shown in the table: the row of its local hour holds it in the
column of its local date. -/
def displayed (z : Zone) (slots : List Slot) (s : Slot) : Prop :=
  ∃ row ∈ tableBody z slots,
    row.1 = getHours z s.startTime ∧ (toDateString z s.startTime, some s) ∈ row.2

/-- The slots of the list that start on the local day `date` in the local hour `hour`. -/
def slotsAt (z : Zone) (slots : List Slot) (date : Int) (hour : Int) : List Slot :=
  slots.filter fun s => toDateString z s.startTime = date ∧ getHours z s.startTime = hour

/-! ## Strings -/

/-- The class `\s` of a regular expression: the white space and line terminator code
points of ECMAScript. -/
def isWhiteSpace (c : Char) : Bool :=
  let n := c.val.toNat
  n == 9 || n == 10 || n == 11 || n == 12 || n == 13 || n == 32 || n == 160 ||
    n == 5760 || (8192 ≤ n && n ≤ 8202) || n == 8232 || n == 8233 || n == 8239 ||
    n == 8287 || n == 12288 || n == 65279

/-- The `length` of a JavaScript string: the number of its UTF-16 code units, two for a
code point above the basic plane. -/
def utf16Length (cs : List Char) : Nat :=
  (cs.map fun c => if c.val.toNat < 65536 then 1 else 2).sum

/-- The call `value.replace(/\s/g, '')`. -/
def removeWhiteSpace (cs : List Char) : List Char :=
  cs.filter fun c => !isWhiteSpace c

/-- The call `value.replace(/\s+/g, '').replace(/[^0-9]/gi, '')` of lines 149 and 164. -/
def digitsOnly (cs : List Char) : List Char :=
  (cs.filter fun c => !isWhiteSpace c).filter Char.isDigit

/-- The call `s.substring(i, j)` for `i ≤ j`, on a string of one-unit characters. -/
def substring (cs : List Char) (i j : Nat) : List Char :=
  (cs.drop i).take (j - i)

/-- The value `matches && matches[0] || ''` for `matches = v.match(/\d{4,16}/g)` (lines
150 and 151): the first match of the pattern, found at the first position followed by
at least 4 digits and extending over the digits from there, at most 16; the empty
string when there is none. -/
def firstDigitRun (v : List Char) : List Char :=
  match v with
  | [] => []
  | c :: rest =>
    let run := ((c :: rest).takeWhile Char.isDigit).take 16
    if 4 ≤ run.length then run else firstDigitRun rest

/-- The loop of lines 153 to 155 from index `i` on, pushing onto `parts`. -/
def partsLoop (m : List Char) (i : Nat) (parts : List (List Char)) : List (List Char) :=
  if i < m.length then partsLoop m (i + 4) (parts ++ [substring m i (i + 4)]) else parts
termination_by m.length - i
decreasing_by omega

/-- The function `formatCardNumber` (lines 148 to 161) on the characters of its
argument. -/
def formatCardNumberChars (value : List Char) : List Char :=
  let v := digitsOnly value
  let m := firstDigitRun v
  let parts := partsLoop m 0 []
  if parts.length ≠ 0 then substring (List.intercalate [' '] parts) 0 19 else v

/-- The function `formatCardNumber` (lines 148 to 161). -/
def formatCardNumber (value : String) : String :=
  String.mk (formatCardNumberChars value.toList)

/-- The function `formatExpiry` (lines 163 to 169) on the characters of its argument. -/
def formatExpiryChars (value : List Char) : List Char :=
  let v := digitsOnly value
  if 2 ≤ v.length then substring v 0 2 ++ ['/'] ++ substring v 2 4 else v

/-- The function `formatExpiry` (lines 163 to 169). -/
def formatExpiry (value : String) : String :=
  String.mk (formatExpiryChars value.toList)

/-- The decimal digits of a string, in order. -/
def digitsOf (value : String) : List Char :=
  value.toList.filter Char.isDigit

/-- The blocks of a card number as the specification words them: blocks of 4
characters, in order, only the last of which may be shorter. -/
def blocksOfFour (l : List Char) : List (List Char) :=
  match l with
  | [] => []
  | a :: t => (a :: t).take 4 :: blocksOfFour ((a :: t).drop 4)
termination_by l.length
decreasing_by simp only [List.length_drop, List.length_cons]; omega

/-! ## The amount -/

/-- A value returned by `calculateAmount`: a number or a string. -/
inductive Amount where
  | number (n : Int)
  | text (s : String)
deriving DecidableEq, Repr

/-- Two decimal digits of a number below 100. -/
def twoDigits (n : Nat) : String :=
  toString (n / 10 % 10) ++ toString (n % 10)

/-- Rounding of a rational number to the nearest integer, to the even one of two. -/
def roundHalfEven (q : Rat) : Int :=
  let f := ⌊q⌋
  if q - f < 1 / 2 then f
  else if 1 / 2 < q - f then f + 1
  else if f % 2 = 0 then f else f + 1

/-- The double (IEEE 754 binary64) that an arithmetic operation of JavaScript returns
when its exact result is `q`: the nearest number with 53 significant bits, the one
with an even last bit of two. Doubles are represented by their exact values. The
exponent is not bounded here: the value is that of the language for `q = 0` and for
`q` from `2 ^ (-1022)` up to the largest double in absolute value, which holds for
every operation of `calculateAmount`. -/
def toDouble (q : Rat) : Rat :=
  if q = 0 then 0
  else
    let ulp : Rat := 2 ^ (Int.log 2 |q| - 52)
    roundHalfEven (q / ulp) * ulp

/-- The time value of `new Date(t)` for the time `t` that a slot record gives: `none`,
an invalid date, when `t` is more than 8.64e15 ms away from the epoch. -/
def timeClip (t : Int) : Option Int :=
  if |t| ≤ 8640000000000000 then some t else none

/-- The call `x.toFixed(2)` on a double of value `x`, below `10 ^ 21` in absolute value:
with `n` the integer for which `n / 100` is nearest to the absolute value of `x`, the
larger one of two, the digits of `n` with a point before the last two, after a minus
sign when `x` is negative. -/
def toFixed2 (x : Rat) : String :=
  let n := (Rat.floor (|x| * 100 + 1 / 2)).toNat
  (if x < 0 then "-" else "") ++ toString (n / 100) ++ "." ++ twoDigits (n % 100)

/-- The function `calculateAmount` (lines 70 to 76). The subtraction, the division and
the multiplication are those of doubles: each returns the double nearest to its exact
result. With an invalid date every operation gives `NaN`, and `toFixed` of it is the
string `NaN`. -/
def calculateAmount (st : State) : Amount :=
  match st.selectedSlot with
  | none => Amount.number 0
  | some selectedSlot =>
    match timeClip selectedSlot.startTime, timeClip selectedSlot.endTime with
    | some start, some stop =>
      let hours : Rat := toDouble (toDouble ((stop - start : Int) : Rat) / (1000 * 60 * 60))
      Amount.text (toFixed2 (toDouble (hours * 5)))
    | _, _ => Amount.text "NaN"

/-- The text React renders for the expression `{calculateAmount()}` (lines 302, 548 and
592): a number by its decimal digits, a string as it is. -/
def renderAmount (a : Amount) : String :=
  match a with
  | Amount.number n => toString n
  | Amount.text s => s

/-! ## Payment, going back, opening and closing -/

/-- What a run of `handlePayment` finds outside the component: the outcome of
`processPayment` and whether the host page passed the optional `onSuccess`. -/
structure PaymentEnv where
  processPayment : Nat → String → Except ApiError Booking
  hasOnSuccess : Bool

/-- The handler `handlePayment` (lines 120 to 146), on the state `snap` captured by its
closure. -/
def handlePayment (env : PaymentEnv) (snap : State) : State × List Call :=
  match snap.booking with
  | none => (snap, [])
  | some booking =>
    if !truthyStr (some snap.cardNumber) || !truthyStr (some snap.cardExpiry) ||
        !truthyStr (some snap.cardCVC) || !truthyStr (some snap.cardholderName) then
      ({ snap with error := "Please fill in all payment details" }, [])
    else if utf16Length (removeWhiteSpace snap.cardNumber.toList) < 16 then
      ({ snap with error := "Please enter a valid card number" }, [])
    else
      let st1 := { snap with loading := true, error := "" }
      match env.processPayment booking.id snap.paymentMethod with
      | .ok _ =>
        ({ st1 with loading := false },
          Call.processPayment booking.id snap.paymentMethod ::
            ((if env.hasOnSuccess then [Call.onSuccess] else []) ++ [Call.onClose]))
      | .error err =>
        let st2 :=
          { st1 with
            error := orStr (err.response.bind (·.dataMessage)) "Payment failed. Please try again." }
        ({ st2 with loading := false }, [Call.processPayment booking.id snap.paymentMethod])

/-- The `onClick` of the Back button (line 566): `setStep('select')`. -/
def back (st : State) : State × List Call :=
  ({ st with step := Step.select }, [])

/-- The props `isOpen` and `port` of the component; of the port its `id`, `none` for a
missing port. -/
structure Props where
  isOpen : Bool
  port : Option Nat

/-- The value `getAvailableSlots` resolves to, as `loadSlots` tells it apart (lines 52
to 60): an array, an object with a `slots` array, an object with an `availableSlots`
array, or anything else. -/
inductive SlotsResult where
  | array (slots : List Slot)
  | withSlots (slots : List Slot)
  | withAvailableSlots (slots : List Slot)
  | other
deriving DecidableEq, Repr

/-- The function `loadSlots` (lines 45 to 68), run on the current state. -/
def loadSlots (props : Props) (getAvailableSlots : Nat → Except ApiError SlotsResult)
    (st : State) : State × List Call :=
  match props.port with
  | none => (st, [])
  | some portId =>
    let st1 := { st with loadingSlots := true, error := "" }
    match getAvailableSlots portId with
    | .ok result =>
      let st2 :=
        match result with
        | SlotsResult.array slots => { st1 with slots := slots }
        | SlotsResult.withSlots slots => { st1 with slots := slots }
        | SlotsResult.withAvailableSlots slots => { st1 with slots := slots }
        | SlotsResult.other => { st1 with slots := [] }
      ({ st2 with loadingSlots := false }, [Call.getAvailableSlots portId])
    | .error err =>
      let errorMsg := orStr (err.response.bind (·.dataMessage))
        (orStr (some err.message) "Failed to load available slots")
      let st2 := { st1 with error := errorMsg }
      ({ st2 with loadingSlots := false }, [Call.getAvailableSlots portId])

/-- The effect run when `isOpen` or `port` changes (lines 19 to 33), with the two loads
it starts run to completion: they set other cells than `step` and `booking`. -/
def openCloseEffect (props : Props) (getAvailableSlots : Nat → Except ApiError SlotsResult)
    (env : Env) (st : State) : State × List Call :=
  if props.isOpen && props.port.isSome then
    let r1 := loadSlots props getAvailableSlots st
    let r2 := loadSubscriptionInfo env r1.1
    ({ r2.1 with step := Step.select, booking := none }, r1.2 ++ r2.2)
  else
    ({ st with
        slots := []
        selectedSlot := none
        error := ""
        step := Step.select
        booking := none
        subscriptionInfo := none }, [])

/-- The cells of the payment form: method, card number, expiry, CVC and holder name. -/
def draft (st : State) : String × String × String × String × String :=
  (st.paymentMethod, st.cardNumber, st.cardExpiry, st.cardCVC, st.cardholderName)

/-- The `onClick` of the Done button of the subscription step (line 557):
`onSuccess?.(); onClose()`. -/
def acknowledge (hasOnSuccess : Bool) (st : State) : State × List Call :=
  (st, (if hasOnSuccess then [Call.onSuccess] else []) ++ [Call.onClose])

/-- The (local day, local hour) key under which the grouping stores a slot. -/
def slotKey (z : Zone) (s : Slot) : Int × Int :=
  (toDateString z s.startTime, getHours z s.startTime)

/-! ## Serialized transitions -/

/-- A transition of the component that runs to completion before the next one: a
click on a slot cell, on the confirm button, on Back, on the pay button, on Done, or a
run of the open/close effect; each with what it finds outside the component. -/
inductive Transition where
  | selectSlot (slot : Slot)
  | confirm (env : Env)
  | back
  | pay (env : PaymentEnv)
  | acknowledge (hasOnSuccess : Bool)
  | effect (props : Props) (getAvailableSlots : Nat → Except ApiError SlotsResult) (env : Env)

/-- The state after a transition and the calls it made. -/
def Transition.apply (t : Transition) (st : State) : State × List Call :=
  match t with
  | Transition.selectSlot slot => (BookingModal.selectSlot st slot, [])
  | Transition.confirm env => handleBooking env st
  | Transition.back => BookingModal.back st
  | Transition.pay env => handlePayment env st
  | Transition.acknowledge hasOnSuccess => BookingModal.acknowledge hasOnSuccess st
  | Transition.effect props getAvailableSlots env =>
    openCloseEffect props getAvailableSlots env st

/-- The bookings that the backend created during a transition: those that a
`createBooking` call of the transition resolved to. -/
def Transition.created (t : Transition) (st : State) : List Booking :=
  match t with
  | Transition.confirm env =>
    (handleBooking env st).2.filterMap fun c =>
      match c with
      | Call.createBooking req => (env.createBooking req).toOption
      | _ => none
  | _ => []

/-- The state after a sequence of transitions from `st`, with the bookings created on
the way added to `created`. -/
def runTransitions (ts : List Transition) (st : State) (created : List Booking) :
    State × List Booking :=
  match ts with
  | [] => (st, created)
  | t :: rest => runTransitions rest (t.apply st).1 (created ++ t.created st)

/-! ## The response interceptor of the API client -/

/-- What the interceptor reads and writes of the browser: the local storage, the path
of the current location and the address assigned to `window.location.href`, if any. -/
structure Browser where
  storage : List (String × String)
  pathname : String
  href : Option String
deriving DecidableEq, Repr

/-- The call `localStorage.removeItem(key)`. -/
def removeItem (storage : List (String × String)) (key : String) : List (String × String) :=
  storage.filter fun kv => kv.1 != key

/-- The rejection handler of the response interceptor (`api.js`, lines 14 to 27): the
browser after it and the promise it returns, `Promise.reject(error)`. -/
def onResponseError (error : ApiError) (w : Browser) : Browser × Except ApiError Unit :=
  if (error.response.map (·.status)) == some 401 then
    let w1 := { w with storage := removeItem w.storage "accessToken" }
    let currentPath := w.pathname
    let w2 :=
      if currentPath != "/login" && currentPath != "/signup" && currentPath != "/admin/login"
      then { w1 with href := some "/login" }
      else w1
    (w2, .error error)
  else
    (w, .error error)

/-- The invariant of the serialized transitions, on a state and the bookings created
so far: a selected slot is available and not past; a set booking is one of the created
bookings; outside the `select` step a slot is selected and a booking is set. -/
def SessionInvariant (p : State × List Booking) : Prop :=
  (∀ s, p.1.selectedSlot = some s → s.available = true ∧ s.past = false) ∧
    (∀ b, p.1.booking = some b → b ∈ p.2) ∧
    (p.1.step ≠ Step.select → p.1.selectedSlot.isSome = true ∧ p.1.booking.isSome = true)

/-! ## Suspended calls

The handlers above run a remote call to its settlement. Here a handler stops at each
`await`; what is left of it is resumed by the settlement of the call, on the state of
the component as it is then: a `setX(v)` writes the cell `X` of the current state. -/

/-- A run of an async function of the component suspended at an `await`, with what the
rest of the run reads of its closure: `loadSlots` at line 50, `loadSubscriptionInfo`
(started by the effect) at line 37, `handleBooking` at line 91, `handleBooking` at line
99 (inside `loadSubscriptionInfo`), `handlePayment` at line 138. -/
inductive Pending where
  | getAvailableSlots
  | checkBookingLimit
  | createBooking (snap : State)
  | refresh (snap : State) (newBooking : Booking)
  | processPayment (hasOnSuccess : Bool)
deriving DecidableEq, Repr

/-- The settlement of a remote call: what it resolves to, or its rejection. -/
inductive Settlement where
  | slots (r : Except ApiError SlotsResult)
  | subscription (r : Except ApiError SubscriptionInfo)
  | booking (r : Except ApiError Booking)

/-- The component with its suspended runs: the state, the suspended runs in the order
they were started, and the calls made so far. -/
structure Session where
  state : State
  pending : List Pending
  calls : List Call
deriving DecidableEq, Repr

/-- The rest of a suspended run, resumed on the current state `st` by the settlement
`r` of the call it awaits: the state after it, the run it leaves suspended, if any, and
the calls it makes. `none` when `r` is no settlement of that call. -/
def resume (p : Pending) (r : Settlement) (st : State) :
    Option (State × List Pending × List Call) :=
  match p, r with
  | Pending.getAvailableSlots, Settlement.slots (.ok result) =>
    let st1 :=
      match result with
      | SlotsResult.array slots => { st with slots := slots }
      | SlotsResult.withSlots slots => { st with slots := slots }
      | SlotsResult.withAvailableSlots slots => { st with slots := slots }
      | SlotsResult.other => { st with slots := [] }
    some ({ st1 with loadingSlots := false }, [], [])
  | Pending.getAvailableSlots, Settlement.slots (.error err) =>
    let errorMsg := orStr (err.response.bind (·.dataMessage))
      (orStr (some err.message) "Failed to load available slots")
    some ({ st with error := errorMsg, loadingSlots := false }, [], [])
  | Pending.checkBookingLimit, Settlement.subscription (.ok info) =>
    some ({ st with subscriptionInfo := some info }, [], [])
  | Pending.checkBookingLimit, Settlement.subscription (.error _) =>
    some ({ st with subscriptionInfo := none }, [], [])
  | Pending.createBooking snap, Settlement.booking (.ok newBooking) =>
    some ({ st with booking := some newBooking }, [Pending.refresh snap newBooking],
      [Call.checkBookingLimit])
  | Pending.createBooking _, Settlement.booking (.error err) =>
    some ({ st with error := bookingErrorMessage err, loading := false }, [], [])
  | Pending.refresh snap newBooking, Settlement.subscription r =>
    let st1 :=
      match r with
      | .ok info => { st with subscriptionInfo := some info }
      | .error _ => { st with subscriptionInfo := none }
    let st2 :=
      if newBooking.paymentStatus == "paid" && hasSubscription? snap.subscriptionInfo then
        { st1 with step := Step.subscription }
      else
        { st1 with step := Step.payment }
    some ({ st2 with loading := false }, [], [])
  | Pending.processPayment hasOnSuccess, Settlement.booking (.ok _) =>
    some ({ st with loading := false }, [],
      (if hasOnSuccess then [Call.onSuccess] else []) ++ [Call.onClose])
  | Pending.processPayment _, Settlement.booking (.error err) =>
    some ({ st with
            error := orStr (err.response.bind (·.dataMessage)) "Payment failed. Please try again."
            loading := false }, [], [])
  | _, _ => none

/-- The run of `loadSlots` up to its `await` (lines 46 to 50). -/
def startLoadSlots (props : Props) (st : State) : State × List Pending × List Call :=
  match props.port with
  | none => (st, [], [])
  | some portId =>
    ({ st with loadingSlots := true, error := "" }, [Pending.getAvailableSlots],
      [Call.getAvailableSlots portId])

/-- The run of `handleBooking` up to its first `await` (lines 79 to 96). -/
def startBooking (portId : Nat) (token : Option String) (snap : State) :
    State × List Pending × List Call :=
  match snap.selectedSlot with
  | none => (snap, [], [])
  | some selectedSlot =>
    if !truthyStr token then
      ({ snap with error := "Please log in to create a booking" }, [], [])
    else
      ({ snap with loading := true, error := "" }, [Pending.createBooking snap],
        [Call.createBooking
          { portId := portId
            startTime := selectedSlot.startTime
            endTime := selectedSlot.endTime
            paymentMethod := snap.paymentMethod }])

/-- The run of `handlePayment` up to its `await` (lines 121 to 138). -/
def startPayment (hasOnSuccess : Bool) (snap : State) : State × List Pending × List Call :=
  match snap.booking with
  | none => (snap, [], [])
  | some booking =>
    if !truthyStr (some snap.cardNumber) || !truthyStr (some snap.cardExpiry) ||
        !truthyStr (some snap.cardCVC) || !truthyStr (some snap.cardholderName) then
      ({ snap with error := "Please fill in all payment details" }, [], [])
    else if utf16Length (removeWhiteSpace snap.cardNumber.toList) < 16 then
      ({ snap with error := "Please enter a valid card number" }, [], [])
    else
      ({ snap with loading := true, error := "" }, [Pending.processPayment hasOnSuccess],
        [Call.processPayment booking.id snap.paymentMethod])

/-- The run of the open/close effect (lines 19 to 33): for an open modal the two loads
are started, up to their `await`, and step and booking are set; for a closed one the
cells are reset. -/
def startEffect (props : Props) (st : State) : State × List Pending × List Call :=
  if props.isOpen && props.port.isSome then
    let r := startLoadSlots props st
    ({ r.1 with step := Step.select, booking := none },
      r.2.1 ++ [Pending.checkBookingLimit], r.2.2 ++ [Call.checkBookingLimit])
  else
    ({ st with
        slots := []
        selectedSlot := none
        error := ""
        step := Step.select
        booking := none
        subscriptionInfo := none }, [], [])

/-- The events of the component: a run of the open/close effect (a reset of the flow
when the modal is closed), a click on the confirm button, a click on the pay button,
and the settlement of the suspended call number `i`. -/
inductive Event where
  | effect (props : Props)
  | confirm (portId : Nat) (token : Option String)
  | pay (hasOnSuccess : Bool)
  | settle (i : Nat) (r : Settlement)

/-- One event. A settlement that matches no suspended call leaves the session as it
is. -/
def Session.step (sess : Session) (e : Event) : Session :=
  match e with
  | Event.effect props =>
    let r := startEffect props sess.state
    { state := r.1, pending := sess.pending ++ r.2.1, calls := sess.calls ++ r.2.2 }
  | Event.confirm portId token =>
    let r := startBooking portId token sess.state
    { state := r.1, pending := sess.pending ++ r.2.1, calls := sess.calls ++ r.2.2 }
  | Event.pay hasOnSuccess =>
    let r := startPayment hasOnSuccess sess.state
    { state := r.1, pending := sess.pending ++ r.2.1, calls := sess.calls ++ r.2.2 }
  | Event.settle i r =>
    match sess.pending[i]? with
    | none => sess
    | some p =>
      match resume p r sess.state with
      | none => sess
      | some next =>
        { state := next.1
          pending := sess.pending.eraseIdx i ++ next.2.1
          calls := sess.calls ++ next.2.2 }

/-- The reset of the flow: the effect run for a closed modal. -/
def Event.reset : Event :=
  Event.effect { isOpen := false, port := none }

/-! ## Concrete inputs -/

/-- A one-hour slot starting at the instant `t`. -/
def hourSlot (t : Int) (available past : Bool) : Slot :=
  { startTime := t, endTime := t + 3600000, available := available, past := past }

/-- A state of the selection step with a selected slot and no subscription status. -/
def selectedState : State :=
  { State.init with selectedSlot := some (hourSlot 32400000 true false) }

/-- A subscription status with an active subscription. -/
def activeSubscription : SubscriptionInfo :=
  { hasSubscription := true, canBook := true, bookingsRemaining := 4, bookingLimit := 5 }

/-- A subscription status without a subscription. -/
def noSubscription : SubscriptionInfo :=
  { hasSubscription := false, canBook := false, bookingsRemaining := 0, bookingLimit := 0 }

/-- A backend that creates a booking of the given payment status and answers the
status request with `refresh`; a token is stored. -/
def backend (paymentStatus : String) (refresh : Except ApiError SubscriptionInfo) : Env :=
  { portId := 1
    token := some "token"
    createBooking := fun req =>
      .ok { id := 7, paymentStatus := paymentStatus, paymentMethod := req.paymentMethod }
    checkBookingLimit := refresh }

/-- A backend that rejects the creation of a booking with `err`. -/
def rejectingBackend (err : ApiError) : Env :=
  { portId := 1
    token := some "token"
    createBooking := fun _ => .error err
    checkBookingLimit := .ok noSubscription }

/-- A booking waiting for its payment. -/
def pendingBooking : Booking :=
  { id := 7, paymentStatus := "pending", paymentMethod := "credit_card" }

/-- A state of the payment step: a booking is set and the payment form is filled in. -/
def paymentState : State :=
  { selectedState with
    step := Step.payment
    booking := some pendingBooking
    cardNumber := "1234 5678 9012 3456"
    cardExpiry := "12/30"
    cardCVC := "123"
    cardholderName := "A Driver" }

/-- A host page that passes `onSuccess`, with a backend that answers `processPayment`
with `outcome`. -/
def payingBackend (outcome : Except ApiError Booking) : PaymentEnv :=
  { processPayment := fun _ _ => outcome, hasOnSuccess := true }

/-- A state with a selected slot from `startTime` to `endTime`. -/
def stateWithSlot (startTime endTime : Int) : State :=
  { State.init with
    selectedSlot :=
      some { startTime := startTime, endTime := endTime, available := true, past := false } }

/-- A rejection of a payment with a backend message. -/
def cardDeclined : ApiError :=
  { response := some { status := 402, dataMessage := some "Card declined" }
    message := "Request failed with status code 402" }

/-- A state of the payment step in which a payment has just failed: a slot is
selected, a booking is set and the error of the failed payment is shown. -/
def failedPaymentState : State :=
  { paymentState with error := "Card declined" }

/-- The session in which the confirm button was clicked with a slot selected and a
token stored, and the flow was reset while `createBooking` was outstanding. -/
def confirmThenReset : Session :=
  (({ state := selectedState, pending := [], calls := [] } : Session).step
    (Event.confirm 1 (some "token"))).step Event.reset

/-- The session in which the modal was opened for port 1 and the flow was reset while
the two loads were outstanding. -/
def openThenReset : Session :=
  (({ state := State.init, pending := [], calls := [] } : Session).step
    (Event.effect { isOpen := true, port := some 1 })).step Event.reset

/-! ## Properties of the event handlers -/

theorem orStr_ne_empty (a : Option String) (b : String) (hb : b ≠ "") : orStr a b ≠ "" := by
  unfold orStr
  split
  · split
    · simp_all
    · exact hb
  · exact hb

theorem bookingErrorMessage_ne_empty (err : ApiError) : bookingErrorMessage err ≠ "" := by
  unfold bookingErrorMessage
  split
  · decide
  · exact orStr_ne_empty _ _ (orStr_ne_empty _ _ (by decide))

/-- What `handleBooking` does once `createBooking` has resolved to `b`: the step is
chosen from `b.paymentStatus` and the subscription status of the captured state. -/
theorem handleBooking_ok (env : Env) (st : State) (slot : Slot) (tok : String) (b : Booking)
    (hsel : st.selectedSlot = some slot) (htok : env.token = some tok) (hne : tok ≠ "")
    (hcreate : env.createBooking
      { portId := env.portId, startTime := slot.startTime, endTime := slot.endTime,
        paymentMethod := st.paymentMethod } = .ok b) :
    handleBooking env st =
      ({ st with
          loading := false
          error := ""
          booking := some b
          subscriptionInfo := env.checkBookingLimit.toOption
          step := if b.paymentStatus == "paid" && hasSubscription? st.subscriptionInfo
            then Step.subscription else Step.payment },
       [Call.createBooking
          { portId := env.portId, startTime := slot.startTime, endTime := slot.endTime,
            paymentMethod := st.paymentMethod },
        Call.checkBookingLimit]) := by
  unfold handleBooking
  simp only [hsel, htok, truthyStr, hcreate, loadSubscriptionInfo]
  have h1 : (tok != "") = true := by simpa using hne
  simp only [h1, Bool.not_true, Bool.false_eq_true, if_false]
  cases hlim : env.checkBookingLimit <;> split <;> simp_all [Except.toOption]

/-- Claim C1, evaluated on the code. A booking is created as "paid" and the status
request made by this run of `handleBooking` reports an active subscription, while the
component held no subscription status when the handler started: the step becomes
`payment`, not `subscription`. Conversely, with an active subscription held at the
start and a status request that reports none, the step becomes `subscription`. The
step is chosen from the status held before the handler started. -/
theorem handleBooking_step_from_captured_status :
    (handleBooking (backend "paid" (.ok activeSubscription)) selectedState).1.step
        = Step.payment ∧
      (handleBooking (backend "paid" (.ok activeSubscription)) selectedState).1.subscriptionInfo
        = some activeSubscription ∧
      (handleBooking (backend "paid" (.ok noSubscription))
          { selectedState with subscriptionInfo := some activeSubscription }).1.step
        = Step.subscription ∧
      (handleBooking (backend "paid" (.ok noSubscription))
          { selectedState with subscriptionInfo := some activeSubscription }).1.subscriptionInfo
        = some noSubscription := by
  refine ⟨?_, ?_, ?_, ?_⟩ <;> decide

/-- Claim C2. With a selected slot and no stored access token, `handleBooking` makes
no remote call (in particular not `createBooking`), sets the error to the non-empty
log-in message and changes nothing else: step (so a `select` step stays `select`),
booking and selected slot are those of the state it started from. -/
theorem handleBooking_without_token (env : Env) (st : State) (slot : Slot)
    (hsel : st.selectedSlot = some slot) (htok : env.token = none) :
    (handleBooking env st).2 = [] ∧
      handleBooking env st = ({ st with error := "Please log in to create a booking" }, []) ∧
      (handleBooking env st).1.error ≠ "" ∧
      (handleBooking env st).1.step = st.step ∧
      (st.step = Step.select → (handleBooking env st).1.step = Step.select) ∧
      (handleBooking env st).1.booking = st.booking ∧
      (handleBooking env st).1.selectedSlot = st.selectedSlot := by
  have h : handleBooking env st
      = ({ st with error := "Please log in to create a booking" }, []) := by
    unfold handleBooking
    simp [hsel, htok, truthyStr]
  rw [h]
  exact ⟨rfl, rfl, by simp, rfl, fun h => h, rfl, rfl⟩

/-- Witness of claim C2: a selected slot, no stored token, a backend that would accept. -/
theorem handleBooking_without_token_witness :
    (handleBooking { backend "paid" (.ok activeSubscription) with token := none }
        selectedState).2 = [] ∧
      (handleBooking { backend "paid" (.ok activeSubscription) with token := none }
        selectedState).1.step = Step.select :=
  have h := handleBooking_without_token
    { backend "paid" (.ok activeSubscription) with token := none } selectedState
    (hourSlot 32400000 true false) rfl rfl
  ⟨h.1, h.2.2.2.2.1 rfl⟩

/-- Claim C3. The click on a slot cell selects the slot if it is available and not
past and leaves the selection unchanged otherwise; step, booking and subscription
status are unchanged in both cases. -/
theorem selectSlot_selectable (st : State) (s : Slot) :
    (selectSlot st s).selectedSlot
        = (if s.available = true ∧ s.past = false then some s else st.selectedSlot) ∧
      (selectSlot st s).step = st.step ∧
      (selectSlot st s).booking = st.booking ∧
      (selectSlot st s).subscriptionInfo = st.subscriptionInfo := by
  unfold selectSlot
  cases ha : s.available <;> cases hp : s.past <;> simp

/-- Claim C8. When `createBooking` resolves to a booking whose payment status is not
"paid", whatever the status request answers (a status or a failure) and whatever
status was held before, the step becomes `payment`, the booking is the created one,
the selected slot is unchanged and the error is empty. -/
theorem handleBooking_unpaid (env : Env) (st : State) (slot : Slot) (tok : String) (b : Booking)
    (hsel : st.selectedSlot = some slot) (htok : env.token = some tok) (hne : tok ≠ "")
    (hcreate : env.createBooking
      { portId := env.portId, startTime := slot.startTime, endTime := slot.endTime,
        paymentMethod := st.paymentMethod } = .ok b)
    (hpaid : b.paymentStatus ≠ "paid") :
    (handleBooking env st).1.step = Step.payment ∧
      (handleBooking env st).1.booking = some b ∧
      (handleBooking env st).1.selectedSlot = st.selectedSlot ∧
      (handleBooking env st).1.error = "" := by
  rw [handleBooking_ok env st slot tok b hsel htok hne hcreate]
  simp [hpaid]

/-- Witness of claim C8: a "pending" booking, an active subscription held before and a
status request that fails. -/
theorem handleBooking_unpaid_witness :
    (handleBooking (backend "pending" (.error { response := none, message := "Network Error" }))
        { selectedState with subscriptionInfo := some activeSubscription }).1.step
        = Step.payment ∧
      (handleBooking (backend "pending" (.error { response := none, message := "Network Error" }))
        { selectedState with subscriptionInfo := some activeSubscription }).1.error = "" :=
  have h := handleBooking_unpaid
    (backend "pending" (.error { response := none, message := "Network Error" }))
    { selectedState with subscriptionInfo := some activeSubscription }
    (hourSlot 32400000 true false) "token"
    { id := 7, paymentStatus := "pending", paymentMethod := "credit_card" }
    rfl rfl (by decide) rfl (by decide)
  ⟨h.1, h.2.2.2⟩

/-- Claim C9. In the `select` step with a selected slot and a stored token, when
`createBooking` is rejected (with any error) the step is still `select`, booking and
selected slot are unchanged, the error is a non-empty message, `loading` is false and
the only remote call made is the rejected `createBooking`: no status request. -/
theorem handleBooking_rejected (env : Env) (st : State) (slot : Slot) (tok : String)
    (err : ApiError)
    (hstep : st.step = Step.select)
    (hsel : st.selectedSlot = some slot) (htok : env.token = some tok) (hne : tok ≠ "")
    (hcreate : env.createBooking
      { portId := env.portId, startTime := slot.startTime, endTime := slot.endTime,
        paymentMethod := st.paymentMethod } = .error err) :
    (handleBooking env st).1.step = Step.select ∧
      (handleBooking env st).1.booking = st.booking ∧
      (st.booking = none → (handleBooking env st).1.booking = none) ∧
      (handleBooking env st).1.selectedSlot = st.selectedSlot ∧
      (handleBooking env st).1.error ≠ "" ∧
      (handleBooking env st).1.loading = false ∧
      (handleBooking env st).2 =
        [Call.createBooking
          { portId := env.portId, startTime := slot.startTime, endTime := slot.endTime,
            paymentMethod := st.paymentMethod }] ∧
      Call.checkBookingLimit ∉ (handleBooking env st).2 := by
  have h1 : (tok != "") = true := by simpa using hne
  have h : handleBooking env st =
      ({ st with loading := false, error := bookingErrorMessage err },
       [Call.createBooking
          { portId := env.portId, startTime := slot.startTime, endTime := slot.endTime,
            paymentMethod := st.paymentMethod }]) := by
    unfold handleBooking
    simp only [hsel, htok, truthyStr, hcreate, h1, Bool.not_true, Bool.false_eq_true, if_false]
  rw [h]
  refine ⟨hstep, rfl, fun h => h, rfl, bookingErrorMessage_ne_empty err, rfl, rfl, ?_⟩
  simp

/-- Witness of claim C9: a rejection with status 409, no backend message and an empty
`err.message`, so that the fallback message is the error. -/
theorem handleBooking_rejected_witness :
    (handleBooking
        (rejectingBackend { response := some { status := 409, dataMessage := none }, message := "" })
        selectedState).1.step = Step.select ∧
      (handleBooking
        (rejectingBackend { response := some { status := 409, dataMessage := none }, message := "" })
        selectedState).1.error ≠ "" :=
  have h := handleBooking_rejected
    (rejectingBackend { response := some { status := 409, dataMessage := none }, message := "" })
    selectedState (hourSlot 32400000 true false) "token"
    { response := some { status := 409, dataMessage := none }, message := "" }
    rfl rfl rfl (by decide) rfl
  ⟨h.1, h.2.2.2.2.1⟩

/-- Claim C10. When `createBooking` resolves to `b` and the status request that
follows is rejected, the rejection is swallowed: the booking is `b`, the subscription
status becomes unset, the error stays empty, `loading` ends false and the step leaves
`select` (it becomes `payment` or `subscription`). -/
theorem handleBooking_refresh_rejected (env : Env) (st : State) (slot : Slot) (tok : String)
    (b : Booking) (err : ApiError)
    (hsel : st.selectedSlot = some slot) (htok : env.token = some tok) (hne : tok ≠ "")
    (hcreate : env.createBooking
      { portId := env.portId, startTime := slot.startTime, endTime := slot.endTime,
        paymentMethod := st.paymentMethod } = .ok b)
    (hrefresh : env.checkBookingLimit = .error err) :
    (handleBooking env st).1.booking = some b ∧
      (handleBooking env st).1.subscriptionInfo = none ∧
      (handleBooking env st).1.error = "" ∧
      (handleBooking env st).1.loading = false ∧
      (handleBooking env st).1.step ≠ Step.select ∧
      ((handleBooking env st).1.step = Step.payment ∨
        (handleBooking env st).1.step = Step.subscription) := by
  rw [handleBooking_ok env st slot tok b hsel htok hne hcreate]
  refine ⟨rfl, by simp [hrefresh, Except.toOption], rfl, rfl, ?_, ?_⟩ <;>
    dsimp only <;> split <;> simp

/-- Witness of claim C10: a "paid" booking followed by a status request that fails. -/
theorem handleBooking_refresh_rejected_witness :
    (handleBooking (backend "paid" (.error { response := none, message := "Network Error" }))
        selectedState).1.booking
        = some { id := 7, paymentStatus := "paid", paymentMethod := "credit_card" } ∧
      (handleBooking (backend "paid" (.error { response := none, message := "Network Error" }))
        selectedState).1.step ≠ Step.select :=
  have h := handleBooking_refresh_rejected
    (backend "paid" (.error { response := none, message := "Network Error" }))
    selectedState (hourSlot 32400000 true false) "token"
    { id := 7, paymentStatus := "paid", paymentMethod := "credit_card" }
    { response := none, message := "Network Error" }
    rfl rfl (by decide) rfl rfl
  ⟨h.1, h.2.2.2.2.1⟩

/-! ## Properties of the dictionary operations -/

theorem objGet_objSet {κ ν : Type} [DecidableEq κ] (o : List (κ × ν)) (k k' : κ) (v : ν) :
    objGet (objSet o k v) k' = if k = k' then some v else objGet o k' := by
  induction o with
  | nil => simp [objSet, objGet]
  | cons p rest ih =>
    obtain ⟨k0, v0⟩ := p
    by_cases h : k0 = k
    · subst h
      by_cases h' : k0 = k' <;> simp [objSet, objGet, h']
    · by_cases h' : k0 = k'
      · subst h'
        simp [objSet, objGet, h, Ne.symm h]
      · simp [objSet, objGet, h, h', ih]

theorem objGet_eq_none_iff {κ ν : Type} [DecidableEq κ] (o : List (κ × ν)) (k : κ) :
    objGet o k = none ↔ k ∉ objKeys o := by
  induction o with
  | nil => simp [objGet, objKeys]
  | cons p rest ih =>
    obtain ⟨k0, v0⟩ := p
    by_cases h : k0 = k
    · simp [objGet, objKeys, h]
    · have ih' : objGet rest k = none ↔ k ∉ List.map Prod.fst rest := ih
      simp [objGet, objKeys, h, Ne.symm h, ih']

theorem objKeys_objSet {κ ν : Type} [DecidableEq κ] (o : List (κ × ν)) (k : κ) (v : ν) :
    objKeys (objSet o k v) = if k ∈ objKeys o then objKeys o else objKeys o ++ [k] := by
  induction o with
  | nil => simp [objSet, objKeys]
  | cons p rest ih =>
    obtain ⟨k0, v0⟩ := p
    have ih' : List.map Prod.fst (objSet rest k v)
        = if k ∈ List.map Prod.fst rest then List.map Prod.fst rest
          else List.map Prod.fst rest ++ [k] := ih
    by_cases h : k0 = k
    · simp [objSet, objKeys, h]
    · simp only [objSet, objKeys, h, if_false, List.map_cons, List.mem_cons, Ne.symm h,
        false_or, ih']
      split <;> simp

/-! ## Properties of the grouping -/

theorem objKeys_groupSlot (z : Zone) (acc : List (Int × List (Int × Slot))) (s : Slot) :
    objKeys (groupSlot z acc s)
      = if toDateString z s.startTime ∈ objKeys acc then objKeys acc
        else objKeys acc ++ [toDateString z s.startTime] := by
  unfold groupSlot
  by_cases h : toDateString z s.startTime ∈ objKeys acc
  · have hn : objGet acc (toDateString z s.startTime) ≠ none := by
      rw [Ne, objGet_eq_none_iff]; exact not_not.mpr h
    obtain ⟨v, hv⟩ := Option.ne_none_iff_exists'.mp hn
    simp [hv, objKeys_objSet, h]
  · have hn : objGet acc (toDateString z s.startTime) = none :=
      (objGet_eq_none_iff _ _).mpr h
    simp [hn, objKeys_objSet, h]

theorem lookupCell_groupSlot (z : Zone) (acc : List (Int × List (Int × Slot))) (s : Slot)
    (date hour : Int) :
    lookupCell (groupSlot z acc s) date hour
      = if toDateString z s.startTime = date ∧ getHours z s.startTime = hour then some s
        else lookupCell acc date hour := by
  unfold groupSlot lookupCell
  simp only [objGet_objSet]
  by_cases hd : toDateString z s.startTime = date
  · subst hd
    cases hget : objGet acc (toDateString z s.startTime) with
    | none =>
      by_cases hh : getHours z s.startTime = hour <;>
        simp [objGet_objSet, hh, objGet]
    | some inner =>
      by_cases hh : getHours z s.startTime = hour <;>
        simp [objGet_objSet, hh, hget]
  · cases hget : objGet acc (toDateString z s.startTime) <;>
      simp [hd, objGet_objSet]

theorem mem_objKeys_foldl_groupSlot (z : Zone) (slots : List Slot)
    (acc : List (Int × List (Int × Slot))) (date : Int) :
    date ∈ objKeys (slots.foldl (groupSlot z) acc)
      ↔ date ∈ objKeys acc ∨ ∃ s ∈ slots, toDateString z s.startTime = date := by
  induction slots generalizing acc with
  | nil => simp
  | cons s rest ih =>
    rw [List.foldl_cons, ih, objKeys_groupSlot]
    by_cases h : toDateString z s.startTime ∈ objKeys acc
    · simp only [h, if_true, List.mem_cons, exists_eq_or_imp]
      constructor
      · rintro (h1 | h1)
        · exact Or.inl h1
        · exact Or.inr (Or.inr h1)
      · rintro (h1 | h1 | h1)
        · exact Or.inl h1
        · exact Or.inl (h1 ▸ h)
        · exact Or.inr h1
    · simp only [h, if_false, List.mem_append, List.mem_singleton, List.mem_cons,
        exists_eq_or_imp, List.not_mem_nil, or_false]
      constructor
      · rintro ((h1 | h1) | h1)
        · exact Or.inl h1
        · exact Or.inr (Or.inl h1.symm)
        · exact Or.inr (Or.inr h1)
      · rintro (h1 | h1 | h1)
        · exact Or.inl (Or.inl h1)
        · exact Or.inl (Or.inr h1.symm)
        · exact Or.inr h1

theorem nodup_objKeys_foldl_groupSlot (z : Zone) (slots : List Slot)
    (acc : List (Int × List (Int × Slot))) (hacc : (objKeys acc).Nodup) :
    (objKeys (slots.foldl (groupSlot z) acc)).Nodup := by
  induction slots generalizing acc with
  | nil => simpa using hacc
  | cons s rest ih =>
    rw [List.foldl_cons]
    apply ih
    rw [objKeys_groupSlot]
    split
    · exact hacc
    · rename_i h
      exact List.Nodup.append hacc (List.nodup_singleton _) (by simpa using h)

theorem getLast?_cons_or {α : Type} (a : α) (l : List α) :
    (a :: l).getLast? = l.getLast?.or (some a) := by
  cases l with
  | nil => rfl
  | cons b t =>
    rw [List.getLast?_cons_cons]
    cases h : (b :: t).getLast? with
    | none => simp at h
    | some x => rfl

theorem lookupCell_foldl_groupSlot (z : Zone) (slots : List Slot)
    (acc : List (Int × List (Int × Slot))) (date hour : Int) :
    lookupCell (slots.foldl (groupSlot z) acc) date hour
      = (slotsAt z slots date hour).getLast?.or (lookupCell acc date hour) := by
  induction slots generalizing acc with
  | nil => simp [slotsAt]
  | cons s rest ih =>
    rw [List.foldl_cons, ih, lookupCell_groupSlot]
    have ih' := ih
    unfold slotsAt at *
    by_cases h : toDateString z s.startTime = date ∧ getHours z s.startTime = hour
    · rw [List.filter_cons_of_pos (by simpa using h), getLast?_cons_or, if_pos h]
      cases (List.filter (fun s => decide (toDateString z s.startTime = date ∧
        getHours z s.startTime = hour)) rest).getLast? <;> rfl
    · rw [List.filter_cons_of_neg (by simpa using h), if_neg h]

/-! ## Properties of the slot table -/

theorem generateTimeSlots_eq :
    generateTimeSlots = [8, 9, 10, 11, 12, 13, 14, 15, 16, 17, 18, 19, 20, 21] := by
  simp [generateTimeSlots, generateTimeSlotsLoop]

theorem mem_generateTimeSlots (h : Int) : h ∈ generateTimeSlots ↔ 8 ≤ h ∧ h ≤ 21 := by
  rw [generateTimeSlots_eq]
  simp only [List.mem_cons, List.mem_singleton, List.not_mem_nil, or_false]
  omega

theorem mem_dates (z : Zone) (slots : List Slot) (d : Int) :
    d ∈ dates z slots ↔ ∃ s ∈ slots, toDateString z s.startTime = d := by
  unfold dates slotsByDateAndHour
  rw [(List.perm_insertionSort _ _).mem_iff, mem_objKeys_foldl_groupSlot]
  simp [objKeys]

theorem cell_eq_getLast? (z : Zone) (slots : List Slot) (date hour : Int) :
    cell z slots date hour = (slotsAt z slots date hour).getLast? := by
  unfold cell slotsByDateAndHour
  rw [lookupCell_foldl_groupSlot]
  cases (slotsAt z slots date hour).getLast? <;> simp [lookupCell, objGet]

theorem cell_of_last (z : Zone) (pre post : List Slot) (s : Slot)
    (hlast : ∀ s' ∈ post, ¬(toDateString z s'.startTime = toDateString z s.startTime ∧
      getHours z s'.startTime = getHours z s.startTime)) :
    cell z (pre ++ s :: post) (toDateString z s.startTime) (getHours z s.startTime)
      = some s := by
  rw [cell_eq_getLast?]
  unfold slotsAt
  have hpost : List.filter (fun s' => decide (toDateString z s'.startTime
      = toDateString z s.startTime ∧ getHours z s'.startTime = getHours z s.startTime)) post
      = [] := by
    rw [List.filter_eq_nil_iff]
    intro a ha
    simpa using hlast a ha
  rw [List.filter_append, List.filter_cons_of_pos (by simp), hpost]
  simp

theorem nodup_dates (z : Zone) (slots : List Slot) : (dates z slots).Nodup := by
  unfold dates slotsByDateAndHour
  rw [(List.perm_insertionSort _ _).nodup_iff]
  exact nodup_objKeys_foldl_groupSlot z slots [] (by simp [objKeys])

theorem orderedInsert_congr {α : Type} (r r' : α → α → Prop) [DecidableRel r]
    [DecidableRel r'] (a : α) (l : List α) (h : ∀ b ∈ l, (r a b ↔ r' a b)) :
    l.orderedInsert r a = l.orderedInsert r' a := by
  induction l with
  | nil => rfl
  | cons b t ih =>
    have hb := h b (List.mem_cons_self _ _)
    have iht := ih (fun c hc => h c (List.mem_cons_of_mem _ hc))
    by_cases hr : r a b
    · rw [List.orderedInsert, List.orderedInsert, if_pos hr, if_pos (hb.mp hr)]
    · rw [List.orderedInsert, List.orderedInsert, if_neg hr,
        if_neg (fun h' => hr (hb.mpr h')), iht]

theorem insertionSort_congr {α : Type} (r r' : α → α → Prop) [DecidableRel r]
    [DecidableRel r'] (l : List α) (h : ∀ a ∈ l, ∀ b ∈ l, (r a b ↔ r' a b)) :
    l.insertionSort r = l.insertionSort r' := by
  induction l with
  | nil => rfl
  | cons a t ih =>
    have iht := ih (fun x hx y hy =>
      h x (List.mem_cons_of_mem _ hx) y (List.mem_cons_of_mem _ hy))
    rw [List.insertionSort, List.insertionSort, iht]
    apply orderedInsert_congr
    intro b hb
    have hbt : b ∈ t := (List.perm_insertionSort r' t).mem_iff.mp hb
    exact h a (List.mem_cons_self _ _) b (List.mem_cons_of_mem _ hbt)

/-- Where the comparator orders the days of the list as the calendar does, the array
`dates` is strictly ascending. -/
theorem dates_sorted_of_calendar_order (z : Zone) (slots : List Slot)
    (horder : ∀ a ∈ dates z slots, ∀ b ∈ dates z slots, (keepsOrder z a b = true ↔ a ≤ b)) :
    (dates z slots).Sorted (· < ·) := by
  have hkeys : dates z slots
      = (objKeys (slotsByDateAndHour z slots)).insertionSort (· ≤ ·) := by
    unfold dates
    apply insertionSort_congr
    intro a ha b hb
    have hmem : ∀ x, x ∈ objKeys (slotsByDateAndHour z slots) → x ∈ dates z slots := by
      intro x hx
      unfold dates
      exact (List.perm_insertionSort _ _).mem_iff.mpr hx
    exact horder a (hmem a ha) b (hmem b hb)
  have hle : (dates z slots).Sorted (· ≤ ·) := by
    rw [hkeys]
    exact List.sorted_insertionSort _ _
  exact hle.lt_of_le (nodup_dates z slots)

/-- Claim C4, evaluated on the code. For every zone and slot list the array `dates` has
no duplicate and its members are exactly the local calendar days on which some slot of
the list starts; it is strictly ascending wherever the comparator orders the days of
the list as the calendar does, as for two days of June 2026 given in descending order.
It is not always in ascending calendar order: the sort compares the dates that
`new Date` reads back from the date keys, and the parser reads the key of 1 June of
the year 50, `Wed Jun 01 0050`, as 1 June 1950. In UTC, for the slots that start at
09:00 on 1 June of the year 50 and on 1 June 1949, the array is
`[1 June 1949, 1 June 0050]`, the later day first. -/
theorem dates_of_two_digit_year :
    (∀ (z : Zone) (slots : List Slot), (dates z slots).Nodup ∧
        (∀ d, d ∈ dates z slots ↔ ∃ s ∈ slots, toDateString z s.startTime = d) ∧
        ((∀ a ∈ dates z slots, ∀ b ∈ dates z slots, (keepsOrder z a b = true ↔ a ≤ b)) →
          (dates z slots).Sorted (· < ·))) ∧
      dates utc [hourSlot (instantOf 2026 6 2 9) true false,
          hourSlot (instantOf 2026 6 1 9) true false]
        = [daysFromCivil 2026 6 1, daysFromCivil 2026 6 2] ∧
      toDateString utc (instantOf 50 6 1 9) = daysFromCivil 50 6 1 ∧
      toDateString utc (instantOf 1949 6 1 9) = daysFromCivil 1949 6 1 ∧
      utc.parse (daysFromCivil 50 6 1) = some (instantOf 1950 6 1 0) ∧
      dates utc [hourSlot (instantOf 50 6 1 9) true false,
          hourSlot (instantOf 1949 6 1 9) true false]
        = [daysFromCivil 1949 6 1, daysFromCivil 50 6 1] ∧
      daysFromCivil 50 6 1 < daysFromCivil 1949 6 1 ∧
      ¬ (dates utc [hourSlot (instantOf 50 6 1 9) true false,
          hourSlot (instantOf 1949 6 1 9) true false]).Sorted (· < ·) := by
  refine ⟨fun z slots => ⟨nodup_dates z slots, mem_dates z slots,
      dates_sorted_of_calendar_order z slots⟩,
    by decide, by decide, by decide, by decide, by decide, by decide, by decide⟩

/-- Claim C5. The grouping is a total function, and when several slots of the list
have the same (local day, local hour) key the cell of that key holds the one that
occurs last in the list: if no slot after `s` has the key of `s`, the cell of that key
is `s`; in general the cell of a key is the last slot of the list with that key. -/
theorem cell_last_write_wins (z : Zone) (pre post : List Slot) (s : Slot)
    (hlast : ∀ s' ∈ post, ¬(toDateString z s'.startTime = toDateString z s.startTime ∧
      getHours z s'.startTime = getHours z s.startTime)) :
    cell z (pre ++ s :: post) (toDateString z s.startTime) (getHours z s.startTime)
        = some s ∧
      ∀ date hour, cell z (pre ++ s :: post) date hour
        = (slotsAt z (pre ++ s :: post) date hour).getLast? :=
  ⟨cell_of_last z pre post s hlast, fun date hour => cell_eq_getLast? z _ date hour⟩

/-- Witness of claim C5: in New York the instants 05:00 UTC and 06:00 UTC of 1 November
2026 are both in the hour 1 of that day (the clocks go back at 06:00 UTC); of the two
slots that start then, with another slot between them, the cell holds the second. -/
theorem cell_last_write_wins_witness :
    slotKey newYork (hourSlot (instantOf 2026 11 1 5) true false)
        = slotKey newYork (hourSlot (instantOf 2026 11 1 6) false true) ∧
      cell newYork [hourSlot (instantOf 2026 11 1 5) true false,
          hourSlot (instantOf 2026 11 1 15) true false,
          hourSlot (instantOf 2026 11 1 6) false true]
        (daysFromCivil 2026 11 1) 1
        = some (hourSlot (instantOf 2026 11 1 6) false true) :=
  ⟨by decide,
    (cell_last_write_wins newYork
      [hourSlot (instantOf 2026 11 1 5) true false,
        hourSlot (instantOf 2026 11 1 15) true false] []
      (hourSlot (instantOf 2026 11 1 6) false true) (by simp)).1⟩

theorem displayed_iff (z : Zone) (slots : List Slot) (s : Slot) :
    displayed z slots s ↔
      (8 ≤ getHours z s.startTime ∧ getHours z s.startTime ≤ 21) ∧
        toDateString z s.startTime ∈ dates z slots ∧
        cell z slots (toDateString z s.startTime) (getHours z s.startTime) = some s := by
  unfold displayed tableBody
  constructor
  · rintro ⟨row, hrow, hhour, hcell⟩
    obtain ⟨hour, hmem, rfl⟩ := List.mem_map.mp hrow
    obtain ⟨date, hdate, heq⟩ := List.mem_map.mp hcell
    simp only [Prod.mk.injEq] at heq hhour
    obtain ⟨rfl, hc⟩ := heq
    subst hhour
    exact ⟨(mem_generateTimeSlots _).mp hmem, hdate, hc⟩
  · rintro ⟨hrange, hdate, hc⟩
    refine ⟨_, List.mem_map.mpr ⟨getHours z s.startTime,
      (mem_generateTimeSlots _).mpr hrange, rfl⟩, rfl, ?_⟩
    exact List.mem_map.mpr ⟨_, hdate, by rw [hc]⟩

/-- Claim C6 fails as stated: in UTC, in the one-element list of an available slot
that starts at 07:00 on 1 June 2026, the slot is in no row of the table, although its
day is a column. -/
theorem early_slot_not_displayed :
    hourSlot (instantOf 2026 6 1 7) true false ∈ [hourSlot (instantOf 2026 6 1 7) true false] ∧
      getHours utc (hourSlot (instantOf 2026 6 1 7) true false).startTime = 7 ∧
      dates utc [hourSlot (instantOf 2026 6 1 7) true false] = [daysFromCivil 2026 6 1] ∧
      ¬ displayed utc [hourSlot (instantOf 2026 6 1 7) true false]
        (hourSlot (instantOf 2026 6 1 7) true false) := by
  refine ⟨by simp, by decide, by decide, ?_⟩
  rw [displayed_iff]
  have h : getHours utc (hourSlot (instantOf 2026 6 1 7) true false).startTime = 7 := by
    decide
  rw [h]
  omega

/-- Claim C6, amended. The grouping filters nothing out: for every slot list and every
slot `s` of it that no later slot of the list shares its (local day, local hour) key
with, whatever `s.available` and `s.past`, the day of `s` is a column of the table and
the object `slotsByDateAndHour` holds `s` under its key; and `s` is shown in the table,
in the row of its local hour and the column of its local day, exactly when that hour
is one of the fixed rows 8 to 21. -/
theorem displayed_iff_hour_in_rows (z : Zone) (pre post : List Slot) (s : Slot)
    (hlast : ∀ s' ∈ post, ¬(toDateString z s'.startTime = toDateString z s.startTime ∧
      getHours z s'.startTime = getHours z s.startTime)) :
    toDateString z s.startTime ∈ dates z (pre ++ s :: post) ∧
      cell z (pre ++ s :: post) (toDateString z s.startTime) (getHours z s.startTime)
        = some s ∧
      (8 ≤ getHours z s.startTime → getHours z s.startTime ≤ 21 →
        displayed z (pre ++ s :: post) s) ∧
      (displayed z (pre ++ s :: post) s ↔
        8 ≤ getHours z s.startTime ∧ getHours z s.startTime ≤ 21) := by
  have hdate : toDateString z s.startTime ∈ dates z (pre ++ s :: post) :=
    (mem_dates _ _ _).mpr ⟨s, by simp, rfl⟩
  have hcell := cell_of_last z pre post s hlast
  refine ⟨hdate, hcell, fun h1 h2 => (displayed_iff _ _ _).mpr ⟨⟨h1, h2⟩, hdate, hcell⟩, ?_⟩
  rw [displayed_iff]
  exact ⟨fun h => h.1, fun h => ⟨h, hdate, hcell⟩⟩

/-- Witness of claim C6 as amended: in New York, in a list that spans the start of
daylight time on 8 March 2026, the booked, past slot that starts at 12:00 UTC on
9 March starts at 08:00 local time and is shown in the table. -/
theorem displayed_iff_hour_in_rows_witness :
    getHours newYork (instantOf 2026 3 9 12) = 8 ∧
      displayed newYork [hourSlot (instantOf 2026 3 7 14) true false,
          hourSlot (instantOf 2026 3 9 12) false true]
        (hourSlot (instantOf 2026 3 9 12) false true) :=
  ⟨by decide,
    (displayed_iff_hour_in_rows newYork [hourSlot (instantOf 2026 3 7 14) true false] []
      (hourSlot (instantOf 2026 3 9 12) false true) (by simp)).2.2.1 (by decide) (by decide)⟩

/-- Claim C7. The rows of the table are the 14 hours 8, 9, ..., 21 in ascending order
for every slot list, and each row has one cell per date of `dates`. For every date `d`
of `dates` and every hour `h` from 8 to 21 the cell is populated, with a slot of the
list that starts on the local day `d` in the local hour `h`, if the list has such a
slot, and is empty otherwise. For the one-element list of an available slot that
starts at an instant `t` of the local hour 9 of a day, `dates` is that one day, the row
of hour 9 holds the slot and the 13 other rows are empty. -/
theorem tableBody_rows_and_cells (z : Zone) (slots : List Slot) :
    generateTimeSlots = [8, 9, 10, 11, 12, 13, 14, 15, 16, 17, 18, 19, 20, 21] ∧
      (tableBody z slots).map Prod.fst
        = [8, 9, 10, 11, 12, 13, 14, 15, 16, 17, 18, 19, 20, 21] ∧
      (∀ row ∈ tableBody z slots,
        row.2 = (dates z slots).map fun d => (d, cell z slots d row.1)) ∧
      (∀ d ∈ dates z slots, ∀ h, 8 ≤ h → h ≤ 21 →
        (((cell z slots d h).isSome ↔
            ∃ s ∈ slots, toDateString z s.startTime = d ∧ getHours z s.startTime = h) ∧
          (∀ s, cell z slots d h = some s →
            s ∈ slots ∧ toDateString z s.startTime = d ∧ getHours z s.startTime = h) ∧
          ((¬∃ s ∈ slots, toDateString z s.startTime = d ∧ getHours z s.startTime = h) →
            cell z slots d h = none))) ∧
      (∀ t : Int, getHours z t = 9 →
        dates z [hourSlot t true false] = [toDateString z t] ∧
        tableBody z [hourSlot t true false]
          = [(8, [(toDateString z t, none)]),
             (9, [(toDateString z t, some (hourSlot t true false))]),
             (10, [(toDateString z t, none)]), (11, [(toDateString z t, none)]),
             (12, [(toDateString z t, none)]), (13, [(toDateString z t, none)]),
             (14, [(toDateString z t, none)]), (15, [(toDateString z t, none)]),
             (16, [(toDateString z t, none)]), (17, [(toDateString z t, none)]),
             (18, [(toDateString z t, none)]), (19, [(toDateString z t, none)]),
             (20, [(toDateString z t, none)]), (21, [(toDateString z t, none)])]) := by
  have hsome : ∀ d h s, cell z slots d h = some s →
      s ∈ slots ∧ toDateString z s.startTime = d ∧ getHours z s.startTime = h := by
    intro d h s hc
    rw [cell_eq_getLast?] at hc
    have hmem : s ∈ slotsAt z slots d h := List.mem_of_getLast?_eq_some hc
    unfold slotsAt at hmem
    simpa using hmem
  have hnone : ∀ d h,
      (¬∃ s ∈ slots, toDateString z s.startTime = d ∧ getHours z s.startTime = h) →
      cell z slots d h = none := by
    intro d h hno
    cases hc : cell z slots d h with
    | none => rfl
    | some s => exact absurd ⟨s, hsome d h s hc⟩ hno
  refine ⟨generateTimeSlots_eq, ?_, ?_, ?_, fun t ht => ?_⟩
  · unfold tableBody
    rw [List.map_map, generateTimeSlots_eq]
    rfl
  · intro row hrow
    unfold tableBody at hrow
    obtain ⟨hour, _, rfl⟩ := List.mem_map.mp hrow
    rfl
  · intro d _ h _ _
    refine ⟨⟨fun hs => ?_, fun hex => ?_⟩, hsome d h, hnone d h⟩
    · obtain ⟨s, hs'⟩ := Option.isSome_iff_exists.mp hs
      exact ⟨s, hsome d h s hs'⟩
    · by_contra hns
      have hn : cell z slots d h = none := by
        cases hc : cell z slots d h with
        | none => rfl
        | some s => simp [hc] at hns
      rw [cell_eq_getLast?, List.getLast?_eq_none_iff] at hn
      obtain ⟨s, hs, hk⟩ := hex
      have : s ∈ slotsAt z slots d h := by
        unfold slotsAt
        simpa using ⟨hs, hk⟩
      rw [hn] at this
      simp at this
  · have hobj : slotsByDateAndHour z [hourSlot t true false]
        = [(toDateString z t, [(9, hourSlot t true false)])] := by
      simp [slotsByDateAndHour, groupSlot, hourSlot, ht, objGet, objSet]
    have hdates : dates z [hourSlot t true false] = [toDateString z t] := by
      unfold dates
      rw [hobj]
      simp [objKeys]
    refine ⟨hdates, ?_⟩
    unfold tableBody cell
    rw [hdates, hobj, generateTimeSlots_eq]
    simp [lookupCell, objGet]

/-- Witness of claim C7, in New York: the one-slot scenario for the slot that starts at
13:00 UTC on 9 March 2026, 09:00 local daylight time; and with a second slot on
10 March at 10:00 local time, the cell of 10 March, hour 10 is populated and the cell
of 10 March, hour 9 is empty. -/
theorem tableBody_rows_and_cells_witness :
    getHours newYork (instantOf 2026 3 9 13) = 9 ∧
      dates newYork [hourSlot (instantOf 2026 3 9 13) true false]
        = [toDateString newYork (instantOf 2026 3 9 13)] ∧
      toDateString newYork (instantOf 2026 3 9 13) = daysFromCivil 2026 3 9 ∧
      (cell newYork [hourSlot (instantOf 2026 3 9 13) true false,
        hourSlot (instantOf 2026 3 10 14) false false] (daysFromCivil 2026 3 10) 10).isSome ∧
      cell newYork [hourSlot (instantOf 2026 3 9 13) true false,
        hourSlot (instantOf 2026 3 10 14) false false] (daysFromCivil 2026 3 10) 9 = none :=
  have h := (tableBody_rows_and_cells newYork
    [hourSlot (instantOf 2026 3 9 13) true false,
      hourSlot (instantOf 2026 3 10 14) false false]).2.2.2.1 (daysFromCivil 2026 3 10)
    ((mem_dates _ _ _).mpr ⟨hourSlot (instantOf 2026 3 10 14) false false, by simp, by decide⟩)
  ⟨by decide,
    ((tableBody_rows_and_cells newYork []).2.2.2.2 (instantOf 2026 3 9 13) (by decide)).1,
    by decide,
    ((h 10 (by decide) (by decide)).1).mpr
      ⟨hourSlot (instantOf 2026 3 10 14) false false, by simp, by decide, by decide⟩,
    (h 9 (by decide) (by decide)).2.2 (by decide)⟩

/-! ## Error messages of `handleBooking` -/

theorem handleBooking_of_rejected (env : Env) (st : State) (slot : Slot) (tok : String)
    (err : ApiError)
    (hsel : st.selectedSlot = some slot) (htok : env.token = some tok) (hne : tok ≠ "")
    (hcreate : env.createBooking
      { portId := env.portId, startTime := slot.startTime, endTime := slot.endTime,
        paymentMethod := st.paymentMethod } = .error err) :
    handleBooking env st =
      ({ st with loading := false, error := bookingErrorMessage err },
       [Call.createBooking
          { portId := env.portId, startTime := slot.startTime, endTime := slot.endTime,
            paymentMethod := st.paymentMethod }]) := by
  have h1 : (tok != "") = true := by simpa using hne
  unfold handleBooking
  simp only [hsel, htok, truthyStr, hcreate, h1, Bool.not_true, Bool.false_eq_true, if_false]

theorem orStr_ne_of_ne (a : Option String) (b x : String) (ha : a ≠ some x) (hb : b ≠ x) :
    orStr a b ≠ x := by
  unfold orStr
  split
  · split
    · intro h
      exact ha (by rw [h])
    · exact hb
  · exact hb

/-- Claim C11 fails as stated. Without a stored token the error of `handleBooking` is
the log-in message, which is not the session-expired message; and a rejection with
status 403 whose backend message is the text of the session-expired message sets that
very text. -/
theorem no_token_message_differs :
    (handleBooking { backend "paid" (.ok activeSubscription) with token := none }
        selectedState).1.error = "Please log in to create a booking" ∧
      (handleBooking { backend "paid" (.ok activeSubscription) with token := none }
        selectedState).1.error ≠ "Your session has expired. Please log in again." ∧
      (handleBooking
        (rejectingBackend
          { response := some
              { status := 403
                dataMessage := some "Your session has expired. Please log in again." }
            message := "Request failed with status code 403" })
        selectedState).1.error = "Your session has expired. Please log in again." := by
  refine ⟨by decide, by decide, by decide⟩

/-- Claim C11, amended. With a selected slot: without a stored token the error is
'Please log in to create a booking', a message other than the session-expired one; a
`createBooking` rejected with status 401 sets 'Your session has expired. Please log in
again.'; a rejection with another status, or without a response, sets the backend
message if there is a non-empty one, else `err.message` if non-empty, else 'Failed to
create booking', and this differs from the session-expired message whenever neither
the backend message nor `err.message` is that text. -/
theorem handleBooking_error_messages (env : Env) (st : State) (slot : Slot)
    (hsel : st.selectedSlot = some slot) :
    (env.token = none →
        (handleBooking env st).1.error = "Please log in to create a booking" ∧
        (handleBooking env st).1.error ≠ "Your session has expired. Please log in again.") ∧
      (∀ tok err, env.token = some tok → tok ≠ "" →
        env.createBooking
          { portId := env.portId, startTime := slot.startTime, endTime := slot.endTime,
            paymentMethod := st.paymentMethod } = .error err →
        (err.response.map (·.status) = some 401 →
          (handleBooking env st).1.error
            = "Your session has expired. Please log in again.") ∧
        (err.response.map (·.status) ≠ some 401 →
          (handleBooking env st).1.error
              = orStr (err.response.bind (·.dataMessage))
                  (orStr (some err.message) "Failed to create booking") ∧
            (err.response.bind (·.dataMessage)
                ≠ some "Your session has expired. Please log in again." →
              err.message ≠ "Your session has expired. Please log in again." →
              (handleBooking env st).1.error
                ≠ "Your session has expired. Please log in again."))) := by
  constructor
  · intro htok
    have h : handleBooking env st
        = ({ st with error := "Please log in to create a booking" }, []) := by
      unfold handleBooking
      simp [hsel, htok, truthyStr]
    rw [h]
    exact ⟨rfl, by simp⟩
  · intro tok err htok hne hcreate
    rw [handleBooking_of_rejected env st slot tok err hsel htok hne hcreate]
    constructor
    · intro h401
      simp [bookingErrorMessage, h401]
    · intro h401
      have hmsg : bookingErrorMessage err
          = orStr (err.response.bind (·.dataMessage))
              (orStr (some err.message) "Failed to create booking") := by
        unfold bookingErrorMessage
        simp [h401]
      refine ⟨hmsg, fun hd hm => ?_⟩
      show bookingErrorMessage err ≠ _
      rw [hmsg]
      exact orStr_ne_of_ne _ _ _ hd
        (orStr_ne_of_ne _ _ _ (fun h => hm (Option.some.inj h)) (by decide))

/-- Witness of claim C11 as amended: a rejection with status 401 and one with status
500 that carries a backend message. -/
theorem handleBooking_error_messages_witness :
    (handleBooking
        (rejectingBackend
          { response := some { status := 401, dataMessage := some "jwt expired" }
            message := "Request failed with status code 401" })
        selectedState).1.error = "Your session has expired. Please log in again." ∧
      (handleBooking
        (rejectingBackend
          { response := some { status := 500, dataMessage := some "Slot already booked" }
            message := "Request failed with status code 500" })
        selectedState).1.error ≠ "Your session has expired. Please log in again." :=
  ⟨((handleBooking_error_messages
      (rejectingBackend
        { response := some { status := 401, dataMessage := some "jwt expired" }
          message := "Request failed with status code 401" })
      selectedState (hourSlot 32400000 true false) rfl).2 "token" _ rfl (by decide) rfl).1
      (by decide),
    (((handleBooking_error_messages
      (rejectingBackend
        { response := some { status := 500, dataMessage := some "Slot already booked" }
          message := "Request failed with status code 500" })
      selectedState (hourSlot 32400000 true false) rfl).2 "token" _ rfl (by decide) rfl).2
      (by decide)).2 (by decide) (by decide)⟩

/-! ## Properties of `handlePayment`, `back` and the open/close effect -/

theorem truthyStr_some (x : String) : truthyStr (some x) = true ↔ x ≠ "" := by
  simp [truthyStr]

/-- The form of the payment step is filled in as `handlePayment` requires it. -/
theorem handlePayment_of_valid (env : PaymentEnv) (st : State) (b : Booking)
    (hb : st.booking = some b)
    (h1 : st.cardNumber ≠ "") (h2 : st.cardExpiry ≠ "") (h3 : st.cardCVC ≠ "")
    (h4 : st.cardholderName ≠ "")
    (h5 : 16 ≤ utf16Length (removeWhiteSpace st.cardNumber.toList)) :
    handlePayment env st =
      match env.processPayment b.id st.paymentMethod with
      | .ok _ =>
        ({ st with loading := false, error := "" },
          Call.processPayment b.id st.paymentMethod ::
            ((if env.hasOnSuccess then [Call.onSuccess] else []) ++ [Call.onClose]))
      | .error err =>
        ({ st with
            loading := false
            error := orStr (err.response.bind (·.dataMessage))
              "Payment failed. Please try again." },
          [Call.processPayment b.id st.paymentMethod]) := by
  unfold handlePayment
  simp only [hb]
  have e1 := (truthyStr_some st.cardNumber).mpr h1
  have e2 := (truthyStr_some st.cardExpiry).mpr h2
  have e3 := (truthyStr_some st.cardCVC).mpr h3
  have e4 := (truthyStr_some st.cardholderName).mpr h4
  simp only [e1, e2, e3, e4, Bool.not_true, Bool.or_self, Bool.false_eq_true, if_false,
    Nat.not_lt.mpr h5]

theorem handlePayment_of_invalid (env : PaymentEnv) (st : State) (b : Booking)
    (hb : st.booking = some b)
    (hinv : st.cardNumber = "" ∨ st.cardExpiry = "" ∨ st.cardCVC = "" ∨
      st.cardholderName = "" ∨ utf16Length (removeWhiteSpace st.cardNumber.toList) < 16) :
    handlePayment env st = ({ st with error := "Please fill in all payment details" }, []) ∨
      handlePayment env st = ({ st with error := "Please enter a valid card number" }, []) := by
  unfold handlePayment
  simp only [hb]
  by_cases hempty : (!truthyStr (some st.cardNumber) || !truthyStr (some st.cardExpiry) ||
      !truthyStr (some st.cardCVC) || !truthyStr (some st.cardholderName)) = true
  · left
    rw [if_pos hempty]
  · right
    rw [if_neg hempty]
    have hlen : utf16Length (removeWhiteSpace st.cardNumber.toList) < 16 := by
      rcases hinv with h | h | h | h | h
      · exact absurd (by simp [truthyStr, h]) hempty
      · exact absurd (by simp [truthyStr, h]) hempty
      · exact absurd (by simp [truthyStr, h]) hempty
      · exact absurd (by simp [truthyStr, h]) hempty
      · exact h
    rw [if_pos hlen]

/-- Claim C12. In the payment step with a booking set, when a field of the form is
empty or the card number without its white space is shorter than 16 (in UTF-16 code
units, the `length` of the source), `handlePayment` makes no call (no `processPayment`,
no `onClose`), sets a non-empty validation error and leaves step and booking as they
were. -/
theorem handlePayment_invalid (env : PaymentEnv) (st : State) (b : Booking)
    (hstep : st.step = Step.payment) (hb : st.booking = some b)
    (hinv : st.cardNumber = "" ∨ st.cardExpiry = "" ∨ st.cardCVC = "" ∨
      st.cardholderName = "" ∨ utf16Length (removeWhiteSpace st.cardNumber.toList) < 16) :
    (handlePayment env st).2 = [] ∧
      (∀ id method, Call.processPayment id method ∉ (handlePayment env st).2) ∧
      Call.onClose ∉ (handlePayment env st).2 ∧
      ((handlePayment env st).1.error = "Please fill in all payment details" ∨
        (handlePayment env st).1.error = "Please enter a valid card number") ∧
      (handlePayment env st).1.error ≠ "" ∧
      (handlePayment env st).1.step = Step.payment ∧
      (handlePayment env st).1.booking = some b := by
  rcases handlePayment_of_invalid env st b hb hinv with h | h <;> rw [h] <;>
    simp [hstep, hb]

/-- Witness of claim C12: a card number of 15 digits in blocks. -/
theorem handlePayment_invalid_witness :
    (handlePayment (payingBackend (.ok pendingBooking))
        { paymentState with cardNumber := "1234 5678 9012 345" }).2 = [] ∧
      (handlePayment (payingBackend (.ok pendingBooking))
        { paymentState with cardNumber := "1234 5678 9012 345" }).1.step = Step.payment :=
  have h := handlePayment_invalid (payingBackend (.ok pendingBooking))
    { paymentState with cardNumber := "1234 5678 9012 345" } pendingBooking rfl rfl
    (Or.inr (Or.inr (Or.inr (Or.inr (by decide)))))
  ⟨h.1, h.2.2.2.2.2.1⟩

theorem isDigit_bounds (c : Char) (h : c.isDigit = true) :
    48 ≤ c.val.toNat ∧ c.val.toNat ≤ 57 := by
  simp only [Char.isDigit, Bool.and_eq_true, decide_eq_true_eq, ge_iff_le] at h
  obtain ⟨h1, h2⟩ := h
  rw [UInt32.le_def] at h1 h2
  constructor
  · have := Fin.le_def.mp h1
    simpa using this
  · have := Fin.le_def.mp h2
    simpa using this

theorem isDigit_not_isWhiteSpace (c : Char) (h : c.isDigit = true) : isWhiteSpace c = false := by
  obtain ⟨h1, h2⟩ := isDigit_bounds c h
  simp only [isWhiteSpace, Bool.or_eq_false_iff, beq_eq_false_iff_ne, Bool.and_eq_false_iff,
    decide_eq_false_iff_not]
  omega

theorem utf16Length_removeWhiteSpace (cs : List Char)
    (h : ∀ c ∈ cs, c.isDigit = true ∨ isWhiteSpace c = true) :
    utf16Length (removeWhiteSpace cs) = (cs.filter Char.isDigit).length := by
  induction cs with
  | nil => rfl
  | cons c t ih =>
    have iht := ih (fun x hx => h x (List.mem_cons_of_mem _ hx))
    unfold utf16Length removeWhiteSpace at *
    by_cases hd : c.isDigit = true
    · have hw := isDigit_not_isWhiteSpace c hd
      have hlt : c.val.toNat < 65536 := by
        have := (isDigit_bounds c hd).2
        omega
      simp [hw, hd, hlt, iht]
      omega
    · have hw : isWhiteSpace c = true := by
        rcases h c (List.mem_cons_self _ _) with h1 | h1
        · exact absurd h1 hd
        · exact h1
      simp [hw, hd, iht]

/-- The check of `handlePayment` on any card number: `processPayment` is called if and
only if the four fields of the form are non-empty and the card number without its
white space has a `length` of at least 16; in every other case no call is made and a
validation error is set. For a card number made of digits and white space only that
length is the number of its digits. -/
theorem handlePayment_validation (env : PaymentEnv) (st : State) (b : Booking)
    (hb : st.booking = some b) :
    (Call.processPayment b.id st.paymentMethod ∈ (handlePayment env st).2 ↔
        (st.cardNumber ≠ "" ∧ st.cardExpiry ≠ "" ∧ st.cardCVC ≠ "" ∧
          st.cardholderName ≠ "" ∧
          16 ≤ utf16Length (removeWhiteSpace st.cardNumber.toList))) ∧
      (¬(st.cardNumber ≠ "" ∧ st.cardExpiry ≠ "" ∧ st.cardCVC ≠ "" ∧
          st.cardholderName ≠ "" ∧
          16 ≤ utf16Length (removeWhiteSpace st.cardNumber.toList)) →
        (handlePayment env st).2 = [] ∧
        ((handlePayment env st).1.error = "Please fill in all payment details" ∨
          (handlePayment env st).1.error = "Please enter a valid card number")) ∧
      ((∀ c ∈ st.cardNumber.toList, c.isDigit = true ∨ isWhiteSpace c = true) →
        utf16Length (removeWhiteSpace st.cardNumber.toList)
          = (st.cardNumber.toList.filter Char.isDigit).length) := by
  have hinvalid : ¬(st.cardNumber ≠ "" ∧ st.cardExpiry ≠ "" ∧ st.cardCVC ≠ "" ∧
      st.cardholderName ≠ "" ∧ 16 ≤ utf16Length (removeWhiteSpace st.cardNumber.toList)) →
      (handlePayment env st).2 = [] ∧
      ((handlePayment env st).1.error = "Please fill in all payment details" ∨
        (handlePayment env st).1.error = "Please enter a valid card number") := by
    intro hn
    have hinv : st.cardNumber = "" ∨ st.cardExpiry = "" ∨ st.cardCVC = "" ∨
        st.cardholderName = "" ∨
        utf16Length (removeWhiteSpace st.cardNumber.toList) < 16 := by
      by_contra hc
      simp only [not_or, not_lt] at hc
      exact hn ⟨hc.1, hc.2.1, hc.2.2.1, hc.2.2.2.1, hc.2.2.2.2⟩
    rcases handlePayment_of_invalid env st b hb hinv with h | h <;> rw [h] <;> simp
  refine ⟨⟨fun hmem => ?_, fun hv => ?_⟩, hinvalid, utf16Length_removeWhiteSpace _⟩
  · by_contra hn
    rw [(hinvalid hn).1] at hmem
    simp at hmem
  · rw [handlePayment_of_valid env st b hb hv.1 hv.2.1 hv.2.2.1 hv.2.2.2.1 hv.2.2.2.2]
    cases env.processPayment b.id st.paymentMethod <;> simp

/-- Claim C14. With the form filled in as `handlePayment` requires and a booking `b`
set in the payment step, `processPayment` is called exactly once, with `b.id` and the
payment method of the form. If it resolves, the calls that follow are `onSuccess`
(when the host page passed it, as it does) and then `onClose`, once each. If it is
rejected, `onClose` is not called, step and booking are unchanged, the error is the
backend message if there is a non-empty one, else 'Payment failed. Please try again.',
hence non-empty, and `loading` ends false. -/
theorem handlePayment_valid (env : PaymentEnv) (st : State) (b : Booking)
    (hstep : st.step = Step.payment) (hb : st.booking = some b)
    (h1 : st.cardNumber ≠ "") (h2 : st.cardExpiry ≠ "") (h3 : st.cardCVC ≠ "")
    (h4 : st.cardholderName ≠ "")
    (h5 : 16 ≤ utf16Length (removeWhiteSpace st.cardNumber.toList)) :
    (handlePayment env st).2.head? = some (Call.processPayment b.id st.paymentMethod) ∧
      ((handlePayment env st).2.filter fun c =>
        match c with
        | Call.processPayment _ _ => true
        | _ => false) = [Call.processPayment b.id st.paymentMethod] ∧
      (∀ paid, env.processPayment b.id st.paymentMethod = .ok paid →
        (handlePayment env st).2 =
          Call.processPayment b.id st.paymentMethod ::
            ((if env.hasOnSuccess then [Call.onSuccess] else []) ++ [Call.onClose]) ∧
        (env.hasOnSuccess = true →
          (handlePayment env st).2 =
            [Call.processPayment b.id st.paymentMethod, Call.onSuccess, Call.onClose]) ∧
        (handlePayment env st).1.loading = false) ∧
      (∀ err, env.processPayment b.id st.paymentMethod = .error err →
        (handlePayment env st).2 = [Call.processPayment b.id st.paymentMethod] ∧
        Call.onClose ∉ (handlePayment env st).2 ∧
        (handlePayment env st).1.step = Step.payment ∧
        (handlePayment env st).1.booking = some b ∧
        (handlePayment env st).1.error
          = orStr (err.response.bind (·.dataMessage)) "Payment failed. Please try again." ∧
        (handlePayment env st).1.error ≠ "" ∧
        (handlePayment env st).1.loading = false) := by
  rw [handlePayment_of_valid env st b hb h1 h2 h3 h4 h5]
  cases hp : env.processPayment b.id st.paymentMethod with
  | ok paid =>
    refine ⟨rfl, ?_, ?_, ?_⟩
    · cases env.hasOnSuccess <;> simp
    · intro _ _
      refine ⟨rfl, fun h => ?_, rfl⟩
      simp [h]
    · intro err h
      cases h
  | error err =>
    refine ⟨rfl, by simp, ?_, ?_⟩
    · intro paid h
      cases h
    · intro err' h
      cases h
      refine ⟨rfl, by simp, hstep, hb, rfl, ?_, rfl⟩
      exact orStr_ne_empty _ _ (by decide)

/-- Witness of claim C14: the filled-in form and a payment rejected with a backend
message. -/
theorem handlePayment_valid_witness :
    (handlePayment
        (payingBackend (.error
          { response := some { status := 402, dataMessage := some "Card declined" }
            message := "Request failed with status code 402" }))
        paymentState).1.error = "Card declined" ∧
      (handlePayment (payingBackend (.ok pendingBooking)) paymentState).2 =
        [Call.processPayment 7 "credit_card", Call.onSuccess, Call.onClose] :=
  ⟨((handlePayment_valid
      (payingBackend (.error
        { response := some { status := 402, dataMessage := some "Card declined" }
          message := "Request failed with status code 402" }))
      paymentState pendingBooking rfl rfl (by decide) (by decide) (by decide) (by decide)
      (by decide)).2.2.2 _ rfl).2.2.2.2.1,
    ((handlePayment_valid (payingBackend (.ok pendingBooking)) paymentState pendingBooking
      rfl rfl (by decide) (by decide) (by decide) (by decide)
      (by decide)).2.2.1 _ rfl).2.1 rfl⟩

/-- Claim C15. From every state, so from every state of the payment step, going back
sets the step to `select`, leaves booking and selected slot unchanged and makes no
call; a click that follows on the selected slot, still available and not past, is
accepted, and the booking is still that of the state before going back. -/
theorem back_keeps_booking (st : State) (s : Slot) (hsel : st.selectedSlot = some s)
    (ha : s.available = true) (hp : s.past = false) :
    (back st).1.step = Step.select ∧
      (back st).1.booking = st.booking ∧
      (back st).1.selectedSlot = st.selectedSlot ∧
      (back st).2 = [] ∧
      (selectSlot (back st).1 s).selectedSlot = some s ∧
      (selectSlot (back st).1 s).booking = st.booking ∧
      (selectSlot (back st).1 s).step = Step.select ∧
      selectSlot (back st).1 s = { st with step := Step.select } := by
  have h : selectSlot (back st).1 s = { st with step := Step.select } := by
    simp [selectSlot, back, ha, hp, ← hsel]
  rw [h]
  simp [back, hsel]

/-- Witness of claim C15: the state of the payment step with its 09:00 slot. -/
theorem back_keeps_booking_witness :
    (back paymentState).1.step = Step.select ∧
      (selectSlot (back paymentState).1 (hourSlot 32400000 true false)).booking
        = some pendingBooking :=
  have h := back_keeps_booking paymentState (hourSlot 32400000 true false) rfl rfl rfl
  ⟨h.1, h.2.2.2.2.2.1⟩

/-- Claim C16 fails as stated: after going back from the payment step with the form
filled in, the card number, expiry, CVC and holder name are still those typed; and so
they are after a successful payment and after the effect run for a closed modal. -/
theorem draft_survives_back :
    (back paymentState).1.cardNumber = "1234 5678 9012 3456" ∧
      (back paymentState).1.cardExpiry = "12/30" ∧
      (back paymentState).1.cardCVC = "123" ∧
      (back paymentState).1.cardholderName = "A Driver" ∧
      (handlePayment (payingBackend (.ok pendingBooking)) paymentState).1.cardNumber
        = "1234 5678 9012 3456" ∧
      (openCloseEffect { isOpen := false, port := none } (fun _ => .ok SlotsResult.other)
        (backend "paid" (.ok activeSubscription)) paymentState).1.cardNumber
        = "1234 5678 9012 3456" := by
  refine ⟨by decide, by decide, by decide, by decide, by decide, by decide⟩

/-- Claim C16, amended. The cells of the payment form exist in every step and no
transition discards them: going back, a run of `handlePayment` (whatever its outcome)
and the effect of opening or closing the modal all leave payment method, card number,
expiry, CVC and holder name as they were. -/
theorem draft_kept (st : State) :
    draft (back st).1 = draft st ∧
      (∀ env, draft (handlePayment env st).1 = draft st) ∧
      (∀ props getAvailableSlots env,
        draft (openCloseEffect props getAvailableSlots env st).1 = draft st) := by
  refine ⟨rfl, fun env => ?_, fun props g env => ?_⟩
  · unfold handlePayment
    split
    · rfl
    · split
      · rfl
      · split
        · rfl
        · split <;> rfl
  · unfold openCloseEffect
    split
    · unfold loadSlots loadSubscriptionInfo
      cases props.port with
      | none => dsimp only; split <;> rfl
      | some portId =>
        dsimp only
        cases g portId with
        | error e => dsimp only; split <;> rfl
        | ok r => cases r <;> dsimp only <;> split <;> rfl
    · rfl

/-! ## Properties of the amount -/

theorem roundHalfEven_sub_le (q : Rat) : |(roundHalfEven q : Rat) - q| ≤ 1 / 2 := by
  have h1 := Int.floor_le q
  have h2 := Int.lt_floor_add_one q
  unfold roundHalfEven
  dsimp only
  rw [abs_le]
  split_ifs <;> push_cast <;> constructor <;> linarith

theorem roundHalfEven_nonneg (q : Rat) (h : 0 ≤ q) : 0 ≤ roundHalfEven q := by
  have h1 : 0 ≤ ⌊q⌋ := Int.floor_nonneg.mpr h
  unfold roundHalfEven
  dsimp only
  split_ifs <;> omega

theorem roundHalfEven_eq (q : Rat) (k : Int) (h : |q - k| < 1 / 2) : roundHalfEven q = k := by
  have hr := roundHalfEven_sub_le q
  rw [abs_lt] at h
  rw [abs_le] at hr
  have h1 : ((roundHalfEven q - k : Int) : Rat) < 1 := by push_cast; linarith
  have h2 : (-1 : Rat) < ((roundHalfEven q - k : Int) : Rat) := by push_cast; linarith
  have h3 : roundHalfEven q - k < 1 := by exact_mod_cast h1
  have h4 : -1 < roundHalfEven q - k := by exact_mod_cast h2
  omega

theorem roundHalfEven_intCast (k : Int) : roundHalfEven (k : Rat) = k :=
  roundHalfEven_eq _ k (by simp)

theorem log_two_eq (q : Rat) (e : Int) (h1 : (2 : Rat) ^ e ≤ |q|) (h2 : |q| < 2 ^ (e + 1)) :
    Int.log 2 |q| = e := by
  have hpos : 0 < |q| := lt_of_lt_of_le (by positivity) h1
  have a : e ≤ Int.log 2 |q| :=
    (Int.zpow_le_iff_le_log (by norm_num) hpos).mp (by exact_mod_cast h1)
  have b : Int.log 2 |q| < e + 1 :=
    (Int.lt_zpow_iff_log_lt (by norm_num) hpos).mp (by exact_mod_cast h2)
  omega

theorem log_two_bounds (q : Rat) (h : q ≠ 0) :
    (2 : Rat) ^ Int.log 2 |q| ≤ |q| ∧ |q| < 2 ^ (Int.log 2 |q| + 1) := by
  have hpos : 0 < |q| := abs_pos.mpr h
  have a := Int.zpow_log_le_self (b := 2) (by norm_num) hpos
  have b := Int.lt_zpow_succ_log_self (b := 2) (by norm_num) |q|
  exact ⟨by exact_mod_cast a, by exact_mod_cast b⟩

theorem toDouble_nonneg (q : Rat) (h : 0 ≤ q) : 0 ≤ toDouble q := by
  unfold toDouble
  split
  · exact le_refl 0
  · dsimp only
    have hu : (0 : Rat) < 2 ^ (Int.log 2 |q| - 52) := by positivity
    have hr : (0 : Rat) ≤ (roundHalfEven (q / 2 ^ (Int.log 2 |q| - 52)) : Rat) := by
      exact_mod_cast roundHalfEven_nonneg _ (div_nonneg h hu.le)
    positivity

/-- The relative error of one rounding is at most `2 ^ (-53)`. -/
theorem toDouble_sub_le (q : Rat) : |toDouble q - q| ≤ |q| / 2 ^ 53 := by
  unfold toDouble
  split
  · rename_i h
    simp [h]
  · rename_i h
    dsimp only
    obtain ⟨hlo, _⟩ := log_two_bounds q h
    generalize Int.log 2 |q| = e at *
    have hu : (0 : Rat) < 2 ^ (e - 52) := by positivity
    have hr := roundHalfEven_sub_le (q / 2 ^ (e - 52))
    have heq : (roundHalfEven (q / 2 ^ (e - 52)) : Rat) * 2 ^ (e - 52) - q
        = ((roundHalfEven (q / 2 ^ (e - 52)) : Rat) - q / 2 ^ (e - 52)) * 2 ^ (e - 52) := by
      field_simp
    rw [heq, abs_mul, abs_of_pos hu]
    have hsplit : (2 : Rat) ^ e = 2 ^ (e - 52) * 2 ^ (52 : Int) := by
      rw [← zpow_add₀ (by norm_num)]
      congr 1
      omega
    have h52 : (2 : Rat) ^ (52 : Int) = 4503599627370496 := by norm_num
    rw [hsplit, h52] at hlo
    rw [le_div_iff₀ (by norm_num)]
    have := mul_le_mul_of_nonneg_right hr hu.le
    nlinarith

/-- A number with at most 53 significant bits is a double. -/
theorem toDouble_exact (m k : Int) (hm : |m| < 2 ^ 53) :
    toDouble ((m : Rat) * 2 ^ k) = (m : Rat) * 2 ^ k := by
  unfold toDouble
  split
  · rename_i h
    rw [h]
  · rename_i h
    dsimp only
    obtain ⟨hlo, _⟩ := log_two_bounds _ h
    generalize Int.log 2 |(m : Rat) * 2 ^ k| = e at *
    have hk : (0 : Rat) < 2 ^ k := by positivity
    have hmq : |(m : Rat)| < 2 ^ (53 : Int) := by
      have : ((|m| : Int) : Rat) < ((2 ^ 53 : Int) : Rat) := by exact_mod_cast hm
      push_cast at this
      exact_mod_cast this
    have hlt : (2 : Rat) ^ e < 2 ^ (53 + k) := by
      rw [zpow_add₀ (by norm_num)]
      rw [abs_mul, abs_of_pos hk] at hlo
      exact lt_of_le_of_lt hlo (mul_lt_mul_of_pos_right hmq hk)
    have he : e < 53 + k := (zpow_lt_zpow_iff_right₀ (by norm_num)).mp hlt
    obtain ⟨j, hj⟩ : ∃ j : Nat, k = e - 52 + j := ⟨(k - (e - 52)).toNat, by omega⟩
    have hdiv : (m : Rat) * 2 ^ k / 2 ^ (e - 52) = ((m * 2 ^ j : Int) : Rat) := by
      rw [hj, zpow_add₀ (by norm_num), zpow_natCast]
      push_cast
      field_simp
      ring
    rw [hdiv, roundHalfEven_intCast]
    rw [hj, zpow_add₀ (by norm_num), zpow_natCast]
    push_cast
    ring

theorem toDouble_intCast (m : Int) (hm : |m| < 2 ^ 53) : toDouble (m : Rat) = m := by
  have h := toDouble_exact m 0 hm
  simpa using h

theorem toDouble_eq_of (q : Rat) (e k : Int) (h1 : (2 : Rat) ^ e ≤ |q|)
    (h2 : |q| < 2 ^ (e + 1)) (hk : |q / 2 ^ (e - 52) - k| < 1 / 2) :
    toDouble q = k * 2 ^ (e - 52) := by
  have hq : q ≠ 0 := by
    intro h
    rw [h, abs_zero] at h1
    exact absurd h1 (not_le.mpr (by positivity))
  unfold toDouble
  rw [if_neg hq]
  dsimp only
  rw [log_two_eq q e h1 h2, roundHalfEven_eq _ k hk]

theorem toFixed2_of_nonneg (x : Rat) (hx : 0 ≤ x) :
    toFixed2 x = toString (⌊x * 100 + 1 / 2⌋.toNat / 100) ++ "."
      ++ twoDigits (⌊x * 100 + 1 / 2⌋.toNat % 100) := by
  unfold toFixed2
  simp only [not_lt.mpr hx, if_false, String.empty_append, abs_of_nonneg hx]
  rfl

theorem calculateAmount_of_slot (st : State) (slot : Slot) (hsel : st.selectedSlot = some slot)
    (hs : |slot.startTime| ≤ 8640000000000000) (he : |slot.endTime| ≤ 8640000000000000) :
    calculateAmount st
      = Amount.text (toFixed2 (toDouble (toDouble
          (toDouble ((slot.endTime - slot.startTime : Int) : Rat) / (1000 * 60 * 60)) * 5))) := by
  unfold calculateAmount timeClip
  rw [hsel]
  simp only [hs, he, if_true]

theorem calculateAmount_whole_hours (st : State) (slot : Slot) (n : Nat)
    (hsel : st.selectedSlot = some slot)
    (hs : |slot.startTime| ≤ 8640000000000000) (he : |slot.endTime| ≤ 8640000000000000)
    (hn : slot.endTime - slot.startTime = (n : Int) * 3600000) :
    calculateAmount st = Amount.text (toString (5 * n) ++ ".00") := by
  rw [calculateAmount_of_slot st slot hsel hs he, hn]
  have hbound : (n : Int) * 3600000 ≤ 17280000000000000 := by
    rw [abs_le] at hs he
    omega
  have h1 : (((n : Int) * 3600000 : Int) : Rat) = ((28125 * n : Int) : Rat) * 2 ^ (7 : Int) := by
    push_cast
    ring
  rw [h1, toDouble_exact _ 7 (by rw [abs_of_nonneg (by positivity)]; omega)]
  have h2 : ((28125 * n : Int) : Rat) * 2 ^ (7 : Int) / (1000 * 60 * 60) = ((n : Int) : Rat) := by
    push_cast
    ring
  rw [h2, toDouble_intCast _ (by rw [abs_of_nonneg (by positivity)]; omega)]
  have h3 : ((n : Int) : Rat) * 5 = ((5 * n : Int) : Rat) := by
    push_cast
    ring
  rw [h3, toDouble_intCast _ (by rw [abs_of_nonneg (by positivity)]; omega)]
  rw [toFixed2_of_nonneg _ (by positivity)]
  have hf : ⌊((5 * n : Int) : Rat) * 100 + 1 / 2⌋ = 500 * n := by
    rw [Int.floor_eq_iff]
    constructor
    · push_cast
      linarith
    · push_cast
      linarith
  rw [hf]
  have hc : (500 * (n : Int)).toNat = 500 * n := by omega
  rw [hc]
  have h4 : 500 * n / 100 = 5 * n := by omega
  have h5 : 500 * n % 100 = 0 := by omega
  rw [h4, h5, String.append_assoc]
  rfl

/-- For a duration of `d` ms, from 0 to `2 ^ 50`, the three roundings move the amount
by less than the distance from a half cent to the nearest other amount of a whole
duration: the number of cents that `toFixed` prints is a nearest one. -/
theorem nearest_cent (d : Int) (h0 : 0 ≤ d) (h1 : d ≤ 2 ^ 50) :
    0 ≤ toDouble (toDouble (toDouble (d : Rat) / (1000 * 60 * 60)) * 5) ∧
      |7200 * ⌊toDouble (toDouble (toDouble (d : Rat) / (1000 * 60 * 60)) * 5) * 100 + 1 / 2⌋
          - d| ≤ 3600 ∧
      0 ≤ ⌊toDouble (toDouble (toDouble (d : Rat) / (1000 * 60 * 60)) * 5) * 100 + 1 / 2⌋ := by
  have hD : toDouble (d : Rat) = d := toDouble_intCast d (by rw [abs_of_nonneg h0]; omega)
  rw [hD]
  have hdq : (0 : Rat) ≤ (d : Rat) := by exact_mod_cast h0
  have hdq1 : (d : Rat) ≤ 1125899906842624 := by exact_mod_cast h1
  have hq0 : (0 : Rat) ≤ (d : Rat) / (1000 * 60 * 60) := by positivity
  have hh0 := toDouble_nonneg _ hq0
  have hh := toDouble_sub_le ((d : Rat) / (1000 * 60 * 60))
  generalize toDouble ((d : Rat) / (1000 * 60 * 60)) = h at *
  have hp0 := toDouble_nonneg (h * 5) (by positivity)
  have hp := toDouble_sub_le (h * 5)
  generalize toDouble (h * 5) = p at *
  rw [abs_of_nonneg hq0, abs_le] at hh
  rw [abs_of_nonneg (by positivity : (0 : Rat) ≤ h * 5), abs_le] at hp
  have hf1 := Int.floor_le (p * 100 + 1 / 2)
  have hf2 := Int.lt_floor_add_one (p * 100 + 1 / 2)
  have hn0 : 0 ≤ ⌊p * 100 + 1 / 2⌋ := Int.floor_nonneg.mpr (by positivity)
  generalize ⌊p * 100 + 1 / 2⌋ = n at *
  refine ⟨hp0, ?_, hn0⟩
  norm_num at hh hp
  have hup : ((7200 * n - d : Int) : Rat) < 3601 := by
    push_cast
    linarith
  have hlo : (-3601 : Rat) < ((7200 * n - d : Int) : Rat) := by
    push_cast
    linarith
  have hup' : 7200 * n - d < 3601 := by exact_mod_cast hup
  have hlo' : -3601 < 7200 * n - d := by exact_mod_cast hlo
  rw [abs_le]
  omega

theorem calculateAmount_nearest_cent (st : State) (slot : Slot)
    (hsel : st.selectedSlot = some slot)
    (hs : |slot.startTime| ≤ 8640000000000000) (he : |slot.endTime| ≤ 8640000000000000)
    (h0 : 0 ≤ slot.endTime - slot.startTime) (h1 : slot.endTime - slot.startTime ≤ 2 ^ 50) :
    ∃ c : Nat,
      calculateAmount st = Amount.text (toString (c / 100) ++ "." ++ twoDigits (c % 100)) ∧
      |7200 * (c : Int) - (slot.endTime - slot.startTime)| ≤ 3600 := by
  obtain ⟨hp, hc, hn⟩ := nearest_cent _ h0 h1
  refine ⟨⌊toDouble (toDouble (toDouble ((slot.endTime - slot.startTime : Int) : Rat)
    / (1000 * 60 * 60)) * 5) * 100 + 1 / 2⌋.toNat, ?_, ?_⟩
  · rw [calculateAmount_of_slot st slot hsel hs he, toFixed2_of_nonneg _ hp]
  · rw [Int.toNat_of_nonneg hn]
    exact hc

/-- Claim C17 fails as stated: for the slot of 54 seconds the exact amount is 0.075, a
half cent, which rounds to `0.08` to the nearest cent (the larger of two, or the even
one); the three operations on doubles give a value below 0.075 and `calculateAmount`
returns `0.07`. -/
theorem half_cent_rounds_down :
    (stateWithSlot 32400000 32454000).selectedSlot
        = some { startTime := 32400000, endTime := 32454000, available := true, past := false } ∧
      (((32454000 - 32400000 : Int) : Rat) / (1000 * 60 * 60) * 5 = 75 / 1000) ∧
      toFixed2 (((32454000 - 32400000 : Int) : Rat) / (1000 * 60 * 60) * 5) = "0.08" ∧
      roundHalfEven (((32454000 - 32400000 : Int) : Rat) / (1000 * 60 * 60) * 5 * 100) = 8 ∧
      calculateAmount (stateWithSlot 32400000 32454000) = Amount.text "0.07" := by
  refine ⟨rfl, by norm_num, ?_, ?_, ?_⟩
  · have hx : ((32454000 - 32400000 : Int) : Rat) / (1000 * 60 * 60) * 5 = 3 / 40 := by norm_num
    rw [hx, toFixed2_of_nonneg _ (by norm_num)]
    have hf : ⌊(3 / 40 : Rat) * 100 + 1 / 2⌋ = 8 := by
      rw [Int.floor_eq_iff]
      constructor <;> norm_num
    rw [hf]
    decide
  · have hx : ((32454000 - 32400000 : Int) : Rat) / (1000 * 60 * 60) * 5 * 100
        = 15 / 2 := by norm_num
    rw [hx]
    have hf : ⌊(15 / 2 : Rat)⌋ = 7 := by
      rw [Int.floor_eq_iff]
      constructor <;> norm_num
    unfold roundHalfEven
    simp only [hf]
    norm_num
  · rw [calculateAmount_of_slot _ _ rfl (by decide) (by decide)]
    show Amount.text (toFixed2 (toDouble (toDouble
      (toDouble ((32454000 - 32400000 : Int) : Rat) / (1000 * 60 * 60)) * 5))) = _
    have hd : (32454000 - 32400000 : Int) = 54000 := by decide
    rw [hd, toDouble_intCast 54000 (by decide)]
    rw [toDouble_eq_of (((54000 : Int) : Rat) / (1000 * 60 * 60)) (-7) 8646911284551352
      (by norm_num [abs_of_pos]) (by norm_num [abs_of_pos]) (by norm_num [abs_lt])]
    have h5 : ((8646911284551352 : Int) : Rat) * 2 ^ ((-7 : Int) - 52) * 5
        = ((5404319552844595 : Int) : Rat) * 2 ^ (-56 : Int) := by norm_num
    rw [h5, toDouble_exact 5404319552844595 (-56) (by decide)]
    rw [toFixed2_of_nonneg _ (by positivity)]
    have hf : ⌊((5404319552844595 : Int) : Rat) * 2 ^ (-56 : Int) * 100 + 1 / 2⌋ = 7 := by
      rw [Int.floor_eq_iff]
      constructor <;> norm_num
    rw [hf]
    decide

/-- Claim C17, amended. With a selected slot from `s` to `e`, both valid dates,
`calculateAmount` is `toFixed(2)` of the double that the source computes, `(e - s) /
3600000 * 5` with each of the three operations rounded to a double. The result is the
same for two slots of the same duration. A slot of `n` whole hours gives `5n` followed
by `.00`, one hour `5.00` and a slot of no duration `0.00`. For a duration from 0 to
`2 ^ 50` ms the result is the amount of `c` cents, written with two decimals, where `c`
is a number of cents nearest to the exact amount of `(e - s) / 7200` cents: the nearest
one when the exact amount is no half cent, one of the two nearest when it is. -/
theorem calculateAmount_in_doubles (st : State) (slot : Slot)
    (hsel : st.selectedSlot = some slot)
    (hs : |slot.startTime| ≤ 8640000000000000) (he : |slot.endTime| ≤ 8640000000000000) :
    calculateAmount st
        = Amount.text (toFixed2 (toDouble (toDouble
            (toDouble ((slot.endTime - slot.startTime : Int) : Rat) / (1000 * 60 * 60)) * 5))) ∧
      (∀ st' slot', st'.selectedSlot = some slot' →
        |slot'.startTime| ≤ 8640000000000000 → |slot'.endTime| ≤ 8640000000000000 →
        slot'.endTime - slot'.startTime = slot.endTime - slot.startTime →
        calculateAmount st' = calculateAmount st) ∧
      (∀ n : Nat, slot.endTime - slot.startTime = (n : Int) * 3600000 →
        calculateAmount st = Amount.text (toString (5 * n) ++ ".00")) ∧
      (slot.endTime - slot.startTime = 3600000 → calculateAmount st = Amount.text "5.00") ∧
      (slot.endTime - slot.startTime = 0 → calculateAmount st = Amount.text "0.00") ∧
      (0 ≤ slot.endTime - slot.startTime → slot.endTime - slot.startTime ≤ 2 ^ 50 →
        ∃ c : Nat,
          calculateAmount st
            = Amount.text (toString (c / 100) ++ "." ++ twoDigits (c % 100)) ∧
          |7200 * (c : Int) - (slot.endTime - slot.startTime)| ≤ 3600 ∧
          ((slot.endTime - slot.startTime) % 7200 ≠ 3600 →
            (c : Int) = (slot.endTime - slot.startTime + 3600) / 7200)) ∧
      (0 ≤ slot.endTime - slot.startTime → slot.endTime - slot.startTime ≤ 2 ^ 50 →
        (slot.endTime - slot.startTime) % 7200 ≠ 3600 →
        calculateAmount st
          = Amount.text
              (toString (((slot.endTime - slot.startTime + 3600) / 7200).toNat / 100) ++ "."
                ++ twoDigits (((slot.endTime - slot.startTime + 3600) / 7200).toNat % 100))) := by
  refine ⟨calculateAmount_of_slot st slot hsel hs he, ?_, ?_, ?_, ?_, ?_, ?_⟩
  · intro st' slot' hsel' hs' he' hd
    rw [calculateAmount_of_slot st slot hsel hs he,
      calculateAmount_of_slot st' slot' hsel' hs' he', hd]
  · exact fun n hn => calculateAmount_whole_hours st slot n hsel hs he hn
  · intro h
    exact calculateAmount_whole_hours st slot 1 hsel hs he (by rw [h]; rfl)
  · intro h
    exact calculateAmount_whole_hours st slot 0 hsel hs he (by rw [h]; rfl)
  · intro h0 h1
    obtain ⟨c, hc, hnear⟩ := calculateAmount_nearest_cent st slot hsel hs he h0 h1
    refine ⟨c, hc, hnear, fun htie => ?_⟩
    rw [abs_le] at hnear
    omega
  · intro h0 h1 htie
    obtain ⟨c, hc, hnear⟩ := calculateAmount_nearest_cent st slot hsel hs he h0 h1
    have hceq : ((slot.endTime - slot.startTime + 3600) / 7200).toNat = c := by
      rw [abs_le] at hnear
      omega
    rw [hceq]
    exact hc

/-- Witness of claim C17 as amended: a slot of one hour, from 09:00 to 10:00, gives
`5.00`; a slot of 90 minutes `7.50`. -/
theorem calculateAmount_in_doubles_witness :
    calculateAmount (stateWithSlot 32400000 36000000) = Amount.text "5.00" ∧
      calculateAmount (stateWithSlot 32400000 37800000) = Amount.text "7.50" :=
  have h := calculateAmount_in_doubles (stateWithSlot 32400000 36000000)
    { startTime := 32400000, endTime := 36000000, available := true, past := false } rfl
    (by decide) (by decide)
  have h' := calculateAmount_in_doubles (stateWithSlot 32400000 37800000)
    { startTime := 32400000, endTime := 37800000, available := true, past := false } rfl
    (by decide) (by decide)
  ⟨h.2.2.2.1 (by decide), h'.2.2.2.2.2.2 (by decide) (by decide) (by decide)⟩

/-- Claim C18, evaluated on the code. Without a selected slot `calculateAmount` returns
the number `0`, not a string of two decimals: the text rendered for it is `0`, while a
selected slot of no duration gives the string `0.00`. -/
theorem calculateAmount_without_slot :
    State.init.selectedSlot = none ∧
      calculateAmount State.init = Amount.number 0 ∧
      renderAmount (calculateAmount State.init) = "0" ∧
      renderAmount (calculateAmount State.init) ≠ "0.00" ∧
      renderAmount (calculateAmount (stateWithSlot 32400000 32400000)) = "0.00" := by
  refine ⟨rfl, rfl, by decide, by decide, ?_⟩
  rw [calculateAmount_whole_hours (stateWithSlot 32400000 32400000)
    { startTime := 32400000, endTime := 32400000, available := true, past := false } 0 rfl
    (by decide) (by decide) (by decide)]
  rfl

/-! ## Properties of the formatting functions -/

theorem digitsOnly_eq_filter (cs : List Char) : digitsOnly cs = cs.filter Char.isDigit := by
  unfold digitsOnly
  rw [List.filter_filter]
  apply List.filter_congr
  intro c _
  cases hd : c.isDigit
  · simp
  · simp [isDigit_not_isWhiteSpace c hd]

theorem firstDigitRun_short (v : List Char) (hlen : v.length < 4) : firstDigitRun v = [] := by
  induction v with
  | nil => rfl
  | cons c rest ih =>
    unfold firstDigitRun
    have h1 : ((List.takeWhile Char.isDigit (c :: rest)).take 16).length < 4 := by
      have := (List.takeWhile_prefix (l := c :: rest) Char.isDigit).length_le
      rw [List.length_take]
      omega
    simp only [Nat.not_le.mpr h1, if_false]
    exact ih (by simp only [List.length_cons] at hlen; omega)

theorem firstDigitRun_digits (v : List Char) (hdig : ∀ c ∈ v, c.isDigit = true)
    (hlen : 4 ≤ v.length) : firstDigitRun v = v.take 16 := by
  cases v with
  | nil => simp at hlen
  | cons c rest =>
    unfold firstDigitRun
    have htw : List.takeWhile Char.isDigit (c :: rest) = c :: rest :=
      List.takeWhile_eq_self_iff.mpr hdig
    simp only [htw]
    have h1 : 4 ≤ ((c :: rest).take 16).length := by
      rw [List.length_take]
      omega
    simp only [h1, if_true]

theorem blocksOfFour_cons (a : Char) (t : List Char) :
    blocksOfFour (a :: t) = (a :: t).take 4 :: blocksOfFour ((a :: t).drop 4) := by
  rw [blocksOfFour]

theorem partsLoop_eq (m : List Char) (k : Nat) :
    ∀ (i : Nat) (parts : List (List Char)), m.length - i = k →
      partsLoop m i parts = parts ++ blocksOfFour (m.drop i) := by
  induction k using Nat.strong_induction_on with
  | _ k ih =>
    intro i parts hk
    rw [partsLoop]
    by_cases hi : i < m.length
    · rw [if_pos hi]
      rw [ih (m.length - (i + 4)) (by omega) (i + 4) _ rfl]
      obtain ⟨a, t, hat⟩ : ∃ a t, m.drop i = a :: t := by
        cases hd : m.drop i with
        | nil =>
          have := List.drop_eq_nil_iff.mp hd
          omega
        | cons a t => exact ⟨a, t, rfl⟩
      rw [hat, blocksOfFour_cons, ← hat, List.drop_drop]
      simp [substring, Nat.add_comm]
    · rw [if_neg hi, List.drop_eq_nil_of_le (by omega)]
      simp [blocksOfFour]

theorem blocksOfFour_split (a : Char) (t : List Char) :
    ∃ hd rest, blocksOfFour (a :: t) = hd :: blocksOfFour rest ∧ hd ++ rest = a :: t ∧
      hd.length = min 4 (t.length + 1) ∧ rest.length = t.length + 1 - 4 :=
  ⟨(a :: t).take 4, (a :: t).drop 4, blocksOfFour_cons a t, List.take_append_drop _ _,
    by rw [List.length_take, List.length_cons], by rw [List.length_drop, List.length_cons]⟩

theorem blocksOfFour_props (n : Nat) :
    ∀ l : List Char, l.length = n →
      (blocksOfFour l).flatten = l ∧
      (∀ b ∈ blocksOfFour l, 1 ≤ b.length ∧ b.length ≤ 4) ∧
      (∀ b ∈ (blocksOfFour l).dropLast, b.length = 4) ∧
      (blocksOfFour l = [] ↔ l = []) ∧
      (List.intercalate [' '] (blocksOfFour l)).length = l.length + (l.length - 1) / 4 ∧
      ((∀ c ∈ l, c.isDigit = true) →
        (List.intercalate [' '] (blocksOfFour l)).filter Char.isDigit = l) := by
  induction n using Nat.strong_induction_on with
  | _ n ih =>
    intro l hl
    cases l with
    | nil => simp [blocksOfFour, List.intercalate]
    | cons a t =>
      obtain ⟨hd, rest, hblocks, hsplit, hlen1, hlen2⟩ := blocksOfFour_split a t
      simp only [List.length_cons] at hl
      obtain ⟨h1, h2, h3, h4, h5, h6⟩ := ih rest.length (by omega) rest rfl
      rw [hblocks, ← hsplit]
      have hcases : blocksOfFour rest = [] ∨
          ∃ x xs, blocksOfFour rest = x :: xs ∧ hd.length = 4 ∧ 1 ≤ rest.length := by
        cases hrest : blocksOfFour rest with
        | nil => exact Or.inl rfl
        | cons x xs =>
          refine Or.inr ⟨x, xs, rfl, ?_⟩
          have hne : rest ≠ [] := by
            intro h
            rw [h4.mpr h] at hrest
            cases hrest
          have : 1 ≤ rest.length := by
            cases rest with
            | nil => exact absurd rfl hne
            | cons r rs => simp
          omega
      have hne : hd ≠ [] := by
        intro h
        rw [h, List.length_nil] at hlen1
        omega
      refine ⟨?_, ?_, ?_, by simp [hne], ?_, ?_⟩
      · rw [List.flatten_cons, h1]
      · intro b hb
        rcases List.mem_cons.mp hb with rfl | hb
        · omega
        · exact h2 b hb
      · intro b hb
        rcases hcases with hnil | ⟨x, xs, hx, hfour, _⟩
        · simp [hnil] at hb
        · rw [hx, List.dropLast_cons₂] at hb
          rcases List.mem_cons.mp hb with rfl | hb
          · exact hfour
          · rw [hx] at h3
            exact h3 b hb
      · rcases hcases with hnil | ⟨x, xs, hx, hfour, hpos⟩
        · have hr : rest = [] := h4.mp hnil
          subst hr
          simp only [hnil, List.intercalate, List.intersperse, List.flatten_cons,
            List.flatten_nil, List.append_nil, List.length_nil] at hlen2 ⊢
          omega
        · rw [hx] at h5
          simp only [hx, List.intercalate, List.intersperse_cons_cons, List.flatten_cons,
            List.length_append, List.length_singleton] at h5 ⊢
          rw [h5]
          omega
      · intro hdig
        have hdhd : hd.filter Char.isDigit = hd :=
          List.filter_eq_self.mpr (fun c hc => hdig c (List.mem_append_left _ hc))
        have h6' := h6 (fun c hc => hdig c (List.mem_append_right _ hc))
        rcases hcases with hnil | ⟨x, xs, hx, _, _⟩
        · have hr : rest = [] := h4.mp hnil
          subst hr
          simp only [hnil, List.intercalate, List.intersperse, List.flatten_cons,
            List.flatten_nil, List.append_nil, hdhd]
        · rw [hx] at h6'
          simp only [hx, List.intercalate, List.intersperse_cons_cons, List.flatten_cons,
            List.filter_append] at h6' ⊢
          rw [h6', hdhd]
          have : List.filter Char.isDigit [' '] = [] := by decide
          rw [this, List.nil_append]

theorem formatCardNumberChars_eq (value : List Char) :
    formatCardNumberChars value
      = if 4 ≤ (value.filter Char.isDigit).length then
          List.intercalate [' '] (blocksOfFour ((value.filter Char.isDigit).take 16))
        else value.filter Char.isDigit := by
  unfold formatCardNumberChars
  simp only [digitsOnly_eq_filter]
  have hdig : ∀ c ∈ value.filter Char.isDigit, c.isDigit = true :=
    fun c hc => (List.mem_filter.mp hc).2
  rw [partsLoop_eq _ _ 0 [] rfl, List.nil_append, List.drop_zero]
  by_cases h4 : 4 ≤ (value.filter Char.isDigit).length
  · rw [firstDigitRun_digits _ hdig h4, if_pos h4]
    obtain ⟨_, _, _, hnil, hlen, _⟩ :=
      blocksOfFour_props _ ((value.filter Char.isDigit).take 16) rfl
    have hne : (blocksOfFour ((value.filter Char.isDigit).take 16)).length ≠ 0 := by
      intro h0
      have := hnil.mp (List.length_eq_zero.mp h0)
      have hl := congrArg List.length this
      rw [List.length_take, List.length_nil] at hl
      omega
    rw [if_pos hne]
    unfold substring
    rw [List.drop_zero, List.take_of_length_le]
    rw [hlen, List.length_take]
    omega
  · rw [firstDigitRun_short _ (by omega), if_neg h4]
    simp [blocksOfFour]

/-- Claim C19. `formatCardNumber` keeps of its argument the decimal digits only. When
there are at least 4, the result is made of the first 16 of them at most, cut into
blocks of 4 in order (every block but the last has 4 digits, the last from 1 to 4)
that are joined by single spaces: its digits are those first digits, at most 16, and
its length is at most 19. When there are fewer than 4, the result is those digits
with nothing between them. -/
theorem formatCardNumber_blocks (value : String) :
    (4 ≤ (digitsOf value).length →
      (formatCardNumber value).toList
          = List.intercalate [' '] (blocksOfFour ((digitsOf value).take 16)) ∧
        (blocksOfFour ((digitsOf value).take 16)).flatten = (digitsOf value).take 16 ∧
        (∀ b ∈ (blocksOfFour ((digitsOf value).take 16)).dropLast, b.length = 4) ∧
        (∀ b ∈ blocksOfFour ((digitsOf value).take 16), 1 ≤ b.length ∧ b.length ≤ 4) ∧
        (formatCardNumber value).toList.filter Char.isDigit = (digitsOf value).take 16 ∧
        ((formatCardNumber value).toList.filter Char.isDigit).length
          = min (digitsOf value).length 16 ∧
        (formatCardNumber value).length
          = min (digitsOf value).length 16 + (min (digitsOf value).length 16 - 1) / 4 ∧
        (formatCardNumber value).length ≤ 19) ∧
      ((digitsOf value).length < 4 → (formatCardNumber value).toList = digitsOf value) := by
  have heq : (formatCardNumber value).toList = formatCardNumberChars value.toList := rfl
  have hlen : (formatCardNumber value).length = (formatCardNumberChars value.toList).length :=
    rfl
  rw [heq, hlen, formatCardNumberChars_eq]
  unfold digitsOf
  constructor
  · intro h4
    rw [if_pos h4]
    obtain ⟨h1, h2, h3, _, h5, h6⟩ :=
      blocksOfFour_props _ ((value.toList.filter Char.isDigit).take 16) rfl
    have hdig : ∀ c ∈ (value.toList.filter Char.isDigit).take 16, c.isDigit = true :=
      fun c hc => (List.mem_filter.mp (List.mem_of_mem_take hc)).2
    have hmin : ((value.toList.filter Char.isDigit).take 16).length
        = min (value.toList.filter Char.isDigit).length 16 := by
      rw [List.length_take, Nat.min_comm]
    refine ⟨rfl, h1, h3, h2, h6 hdig, ?_, ?_, ?_⟩
    · rw [h6 hdig, hmin]
    · rw [h5, hmin]
    · rw [h5, hmin]
      omega
  · intro h4
    rw [if_neg (by omega)]

/-- Witness of claim C19: a pasted number with separators and 18 digits. -/
theorem formatCardNumber_blocks_witness :
    (formatCardNumber "4111-1111 1111 1111 99").toList.filter Char.isDigit
        = "4111111111111111".toList ∧
      (formatCardNumber "4111-1111 1111 1111 99").length ≤ 19 :=
  have h := (formatCardNumber_blocks "4111-1111 1111 1111 99").1 (by decide)
  ⟨h.2.2.2.2.1, h.2.2.2.2.2.2.2⟩

theorem formatExpiryChars_eq (value : List Char) :
    formatExpiryChars value
      = if 2 ≤ (value.filter Char.isDigit).length then
          (value.filter Char.isDigit).take 2
            ++ '/' :: ((value.filter Char.isDigit).drop 2).take 2
        else value.filter Char.isDigit := by
  unfold formatExpiryChars substring
  simp only [digitsOnly_eq_filter, List.drop_zero]
  split <;> simp

/-- Claim C20. `formatExpiry` keeps of its argument the decimal digits only. When
there are at least 2, the result is the first two digits, then `/`, then the third
and the fourth digit as far as they exist, and nothing else: 3 to 5 characters, 5 of
the shape MM/YY when there are at least 4 digits. When there are fewer than 2, the
result is those digits. -/
theorem formatExpiry_shape (value : String) :
    (2 ≤ (digitsOf value).length →
      (formatExpiry value).toList
          = (digitsOf value).take 2 ++ '/' :: ((digitsOf value).drop 2).take 2 ∧
        (∃ m1 m2 rest, digitsOf value = m1 :: m2 :: rest ∧
          (formatExpiry value).toList = m1 :: m2 :: '/' :: rest.take 2) ∧
        (formatExpiry value).length = 3 + min ((digitsOf value).length - 2) 2 ∧
        (formatExpiry value).length ≤ 5 ∧
        (4 ≤ (digitsOf value).length →
          ∃ m1 m2 y1 y2 rest, digitsOf value = m1 :: m2 :: y1 :: y2 :: rest ∧
            (formatExpiry value).toList = [m1, m2, '/', y1, y2])) ∧
      ((digitsOf value).length < 2 → (formatExpiry value).toList = digitsOf value) := by
  have heq : (formatExpiry value).toList = formatExpiryChars value.toList := rfl
  have hlen : (formatExpiry value).length = (formatExpiryChars value.toList).length := rfl
  rw [heq, hlen, formatExpiryChars_eq]
  unfold digitsOf
  constructor
  · intro h2
    rw [if_pos h2]
    refine ⟨rfl, ?_, ?_, ?_, ?_⟩
    · match hds : value.toList.filter Char.isDigit, h2 with
      | m1 :: m2 :: rest, _ => exact ⟨m1, m2, rest, rfl, by simp⟩
    · simp only [List.length_append, List.length_cons, List.length_take, List.length_drop]
      omega
    · simp only [List.length_append, List.length_cons, List.length_take, List.length_drop]
      omega
    · intro h4
      match hds : value.toList.filter Char.isDigit, h4 with
      | m1 :: m2 :: y1 :: y2 :: rest, _ => exact ⟨m1, m2, y1, y2, rest, rfl, by simp⟩
  · intro h2
    rw [if_neg (by omega)]

/-- Witness of claim C20: four digits typed with a separator, and two digits. -/
theorem formatExpiry_shape_witness :
    (formatExpiry "12/30").toList = "12/30".toList ∧ (formatExpiry "12").length ≤ 5 :=
  ⟨((formatExpiry_shape "12/30").1 (by decide)).1,
    ((formatExpiry_shape "12").1 (by decide)).2.2.2.1⟩

/-! ## Formatting and validation of the card number -/

theorem mem_intercalate_blocksOfFour (n : Nat) :
    ∀ l : List Char, l.length = n →
      ∀ c ∈ List.intercalate [' '] (blocksOfFour l), c ∈ l ∨ c = ' ' := by
  induction n using Nat.strong_induction_on with
  | _ n ih =>
    intro l hl c hc
    cases l with
    | nil => simp [blocksOfFour, List.intercalate] at hc
    | cons a t =>
      obtain ⟨hd, rest, hblocks, hsplit, hlen1, hlen2⟩ := blocksOfFour_split a t
      simp only [List.length_cons] at hl
      have hrec := ih rest.length (by omega) rest rfl
      rw [hblocks] at hc
      rw [← hsplit]
      cases hrest : blocksOfFour rest with
      | nil =>
        simp only [hrest, List.intercalate, List.intersperse, List.flatten_cons,
          List.flatten_nil, List.append_nil] at hc
        exact Or.inl (List.mem_append_left _ hc)
      | cons x xs =>
        rw [hrest] at hrec
        simp only [hrest, List.intercalate, List.intersperse_cons_cons, List.flatten_cons,
          List.mem_append, List.mem_singleton] at hc hrec
        rcases hc with hc | hc | hc
        · exact Or.inl (List.mem_append_left _ hc)
        · exact Or.inr hc
        · rcases hrec c hc with h | h
          · exact Or.inl (List.mem_append_right _ h)
          · exact Or.inr h

theorem removeWhiteSpace_formatCardNumberChars (value : List Char) :
    removeWhiteSpace (formatCardNumberChars value) = (value.filter Char.isDigit).take 16 ∧
      (formatCardNumberChars value).filter Char.isDigit = (value.filter Char.isDigit).take 16 ∧
      ∀ c ∈ formatCardNumberChars value, c.isDigit = true ∨ c = ' ' := by
  have hdig : ∀ c ∈ (value.filter Char.isDigit).take 16, c.isDigit = true :=
    fun c hc => (List.mem_filter.mp (List.mem_of_mem_take hc)).2
  have hmem : ∀ c ∈ formatCardNumberChars value, c.isDigit = true ∨ c = ' ' := by
    intro c hc
    rw [formatCardNumberChars_eq] at hc
    split at hc
    · rcases mem_intercalate_blocksOfFour _ _ rfl c hc with h | h
      · exact Or.inl (hdig c h)
      · exact Or.inr h
    · exact Or.inl (List.mem_filter.mp hc).2
  have hfilter : (formatCardNumberChars value).filter Char.isDigit
      = (value.filter Char.isDigit).take 16 := by
    rw [formatCardNumberChars_eq]
    split
    · exact (blocksOfFour_props _ _ rfl).2.2.2.2.2 hdig
    · rename_i h4
      rw [List.take_of_length_le (by omega)]
      exact List.filter_eq_self.mpr (fun c hc => (List.mem_filter.mp hc).2)
  refine ⟨?_, hfilter, hmem⟩
  rw [← hfilter]
  unfold removeWhiteSpace
  apply List.filter_congr
  intro c hc
  rcases hmem c hc with h | h
  · rw [isDigit_not_isWhiteSpace c h, h]
    rfl
  · subst h
    decide

theorem utf16Length_digits (cs : List Char) (h : ∀ c ∈ cs, c.isDigit = true) :
    utf16Length cs = cs.length := by
  induction cs with
  | nil => rfl
  | cons c t ih =>
    have hc := (isDigit_bounds c (h c (List.mem_cons_self _ _))).2
    have hlt : c.val.toNat < 65536 := by omega
    have iht := ih (fun x hx => h x (List.mem_cons_of_mem _ hx))
    unfold utf16Length at *
    simp [hlt, iht]
    omega

theorem formatCardNumberChars_idem (value : List Char) :
    formatCardNumberChars (formatCardNumberChars value) = formatCardNumberChars value := by
  have h := (removeWhiteSpace_formatCardNumberChars value).2.1
  rw [formatCardNumberChars_eq (formatCardNumberChars value), h]
  rw [formatCardNumberChars_eq value]
  have hlen : ((value.filter Char.isDigit).take 16).length
      = min 16 (value.filter Char.isDigit).length := List.length_take _ _
  by_cases h4 : 4 ≤ (value.filter Char.isDigit).length
  · rw [if_pos h4, if_pos (by omega), List.take_take, Nat.min_self]
  · rw [if_neg h4, if_neg (by omega), List.take_of_length_le (by omega)]

theorem formatCardNumber_sample :
    formatCardNumber "4111-1111-1111-1111" = "4111 1111 1111 1111" := by
  show String.mk (formatCardNumberChars "4111-1111-1111-1111".toList) = _
  rw [formatCardNumberChars_eq]
  simp [blocksOfFour]
  decide

/-- Claim C13. The card number of the form is the empty string or a value of
`formatCardNumber`: the cell is written by `setCardNumber(formatCardNumber(...))` of
line 337 only; the other three fields are arbitrary strings. For every such state of
the payment step with a booking `b` set, `handlePayment` calls `processPayment` if and
only if the four fields are non-empty and the card number, after removing white space,
contains at least 16 digits; then the call is made with `b.id` and the payment method
of the form. In every other case it makes no call, sets one of the two validation
errors and stays in the payment step with the booking. The card number without its
white space is made of digits only, so the `length` that line 130 tests is its number
of digits. -/
theorem handlePayment_validates_draft (env : PaymentEnv) (st : State) (b : Booking)
    (x : String) (hstep : st.step = Step.payment) (hb : st.booking = some b)
    (hcard : st.cardNumber = formatCardNumber x) :
    ((∃ id method, Call.processPayment id method ∈ (handlePayment env st).2) ↔
        (st.cardNumber ≠ "" ∧ st.cardExpiry ≠ "" ∧ st.cardCVC ≠ "" ∧
          st.cardholderName ≠ "" ∧
          16 ≤ ((removeWhiteSpace st.cardNumber.toList).filter Char.isDigit).length)) ∧
      ((st.cardNumber ≠ "" ∧ st.cardExpiry ≠ "" ∧ st.cardCVC ≠ "" ∧
          st.cardholderName ≠ "" ∧
          16 ≤ ((removeWhiteSpace st.cardNumber.toList).filter Char.isDigit).length) →
        (handlePayment env st).2.head? = some (Call.processPayment b.id st.paymentMethod)) ∧
      (¬(st.cardNumber ≠ "" ∧ st.cardExpiry ≠ "" ∧ st.cardCVC ≠ "" ∧
          st.cardholderName ≠ "" ∧
          16 ≤ ((removeWhiteSpace st.cardNumber.toList).filter Char.isDigit).length) →
        (handlePayment env st).2 = [] ∧
        ((handlePayment env st).1.error = "Please fill in all payment details" ∨
          (handlePayment env st).1.error = "Please enter a valid card number") ∧
        (handlePayment env st).1.step = Step.payment ∧
        (handlePayment env st).1.booking = some b) ∧
      (∀ c ∈ removeWhiteSpace st.cardNumber.toList, c.isDigit = true) ∧
      utf16Length (removeWhiteSpace st.cardNumber.toList)
        = ((removeWhiteSpace st.cardNumber.toList).filter Char.isDigit).length := by
  have heq : st.cardNumber.toList = formatCardNumberChars x.toList := by
    rw [hcard]
    rfl
  obtain ⟨hrm, _, _⟩ := removeWhiteSpace_formatCardNumberChars x.toList
  have hdig : ∀ c ∈ removeWhiteSpace st.cardNumber.toList, c.isDigit = true := by
    intro c hc
    rw [heq, hrm] at hc
    exact (List.mem_filter.mp (List.mem_of_mem_take hc)).2
  have hfilter : (removeWhiteSpace st.cardNumber.toList).filter Char.isDigit
      = removeWhiteSpace st.cardNumber.toList := List.filter_eq_self.mpr hdig
  have hlen : utf16Length (removeWhiteSpace st.cardNumber.toList)
      = ((removeWhiteSpace st.cardNumber.toList).filter Char.isDigit).length := by
    rw [hfilter]
    exact utf16Length_digits _ hdig
  rw [← hlen]
  have hinvalid : ¬(st.cardNumber ≠ "" ∧ st.cardExpiry ≠ "" ∧ st.cardCVC ≠ "" ∧
      st.cardholderName ≠ "" ∧ 16 ≤ utf16Length (removeWhiteSpace st.cardNumber.toList)) →
      handlePayment env st = ({ st with error := "Please fill in all payment details" }, []) ∨
        handlePayment env st = ({ st with error := "Please enter a valid card number" }, []) := by
    intro hn
    apply handlePayment_of_invalid env st b hb
    by_contra hc
    simp only [not_or, not_lt] at hc
    exact hn ⟨hc.1, hc.2.1, hc.2.2.1, hc.2.2.2.1, hc.2.2.2.2⟩
  have hvalid : (st.cardNumber ≠ "" ∧ st.cardExpiry ≠ "" ∧ st.cardCVC ≠ "" ∧
      st.cardholderName ≠ "" ∧ 16 ≤ utf16Length (removeWhiteSpace st.cardNumber.toList)) →
      (handlePayment env st).2.head? = some (Call.processPayment b.id st.paymentMethod) := by
    intro hv
    rw [handlePayment_of_valid env st b hb hv.1 hv.2.1 hv.2.2.1 hv.2.2.2.1 hv.2.2.2.2]
    cases env.processPayment b.id st.paymentMethod <;> rfl
  refine ⟨⟨fun hmem => ?_, fun hv => ?_⟩, hvalid, fun hn => ?_, hdig, rfl⟩
  · by_contra hn
    obtain ⟨id, method, hmem⟩ := hmem
    rcases hinvalid hn with h | h <;> rw [h] at hmem <;> simp at hmem
  · exact ⟨b.id, st.paymentMethod, List.mem_of_mem_head? (hvalid hv)⟩
  · rcases hinvalid hn with h | h <;> rw [h] <;> simp [hstep, hb]

/-- Witness of claim C13: the form filled in, with the card number that the field holds
after `4111-1111-1111-1111` was typed into it: `processPayment` is called. With the
card number after `4111-1111-1111-111`, 15 digits, no call is made. -/
theorem handlePayment_validates_draft_witness :
    (∃ id method, Call.processPayment id method ∈
        (handlePayment (payingBackend (.ok pendingBooking))
          { paymentState with cardNumber := "4111 1111 1111 1111" }).2) ∧
      (handlePayment (payingBackend (.ok pendingBooking))
        { paymentState with cardNumber := formatCardNumber "4111-1111-1111-111" }).2 = [] :=
  ⟨(handlePayment_validates_draft (payingBackend (.ok pendingBooking))
      { paymentState with cardNumber := "4111 1111 1111 1111" } pendingBooking
      "4111-1111-1111-1111" rfl rfl formatCardNumber_sample.symm).1.mpr
      ⟨by decide, by decide, by decide, by decide, by decide⟩,
    ((handlePayment_validates_draft (payingBackend (.ok pendingBooking))
      { paymentState with cardNumber := formatCardNumber "4111-1111-1111-111" } pendingBooking
      "4111-1111-1111-111" rfl rfl rfl).2.2.1 (fun h => by
        have h16 := h.2.2.2.2
        have hrm := (removeWhiteSpace_formatCardNumberChars "4111-1111-1111-111".toList).1
        have heq : ({ paymentState with
            cardNumber := formatCardNumber "4111-1111-1111-111" } : State).cardNumber.toList
            = formatCardNumberChars "4111-1111-1111-111".toList := rfl
        rw [heq, hrm] at h16
        revert h16
        decide)).1⟩

/-- Claim C21. For every string `x`, the card-number check of `handlePayment` (the
`length` of the value without its white space is at least 16) accepts
`formatCardNumber x` if and only if `x` has at least 16 decimal digits; the accepted
value without its white space is then the first 16 digits of `x`, exactly 16 digits.
So, with a booking set and the other fields filled in, `handlePayment` on the
formatted value calls `processPayment` exactly when `x` has at least 16 digits. -/
theorem formatCardNumber_validation (x : String) :
    (16 ≤ utf16Length (removeWhiteSpace (formatCardNumber x).toList)
        ↔ 16 ≤ (digitsOf x).length) ∧
      (16 ≤ (digitsOf x).length →
        removeWhiteSpace (formatCardNumber x).toList = (digitsOf x).take 16 ∧
        (removeWhiteSpace (formatCardNumber x).toList).length = 16 ∧
        (∀ c ∈ removeWhiteSpace (formatCardNumber x).toList, c.isDigit = true) ∧
        ((formatCardNumber x).toList.filter Char.isDigit).length = 16) ∧
      (∀ (env : PaymentEnv) (st : State) (b : Booking), st.booking = some b →
        st.cardExpiry ≠ "" → st.cardCVC ≠ "" → st.cardholderName ≠ "" →
        (Call.processPayment b.id st.paymentMethod
            ∈ (handlePayment env { st with cardNumber := formatCardNumber x }).2
          ↔ 16 ≤ (digitsOf x).length)) := by
  have heq : (formatCardNumber x).toList = formatCardNumberChars x.toList := rfl
  obtain ⟨hrm, hfil, _⟩ := removeWhiteSpace_formatCardNumberChars x.toList
  have hdig : ∀ c ∈ (x.toList.filter Char.isDigit).take 16, c.isDigit = true :=
    fun c hc => (List.mem_filter.mp (List.mem_of_mem_take hc)).2
  have hlen : utf16Length (removeWhiteSpace (formatCardNumber x).toList)
      = min 16 (digitsOf x).length := by
    rw [heq, hrm, utf16Length_digits _ hdig, List.length_take]
    rfl
  have hiff : 16 ≤ utf16Length (removeWhiteSpace (formatCardNumber x).toList)
      ↔ 16 ≤ (digitsOf x).length := by
    rw [hlen]
    omega
  refine ⟨hiff, fun h16 => ?_, ?_⟩
  · rw [heq, hrm, hfil]
    unfold digitsOf at h16 ⊢
    refine ⟨rfl, ?_, hdig, ?_⟩ <;> rw [List.length_take] <;> omega
  · intro env st b hb h2 h3 h4
    constructor
    · intro hmem
      by_contra hn
      have hshort : utf16Length
          (removeWhiteSpace ({ st with cardNumber := formatCardNumber x } : State).cardNumber.toList)
          < 16 := by
        show utf16Length (removeWhiteSpace (formatCardNumber x).toList) < 16
        rw [hlen]
        omega
      rcases handlePayment_of_invalid env { st with cardNumber := formatCardNumber x } b hb
        (Or.inr (Or.inr (Or.inr (Or.inr hshort)))) with h | h <;>
        · rw [h] at hmem
          simp at hmem
    · intro h16
      have hne : formatCardNumber x ≠ "" := by
        intro h0
        have : utf16Length (removeWhiteSpace (formatCardNumber x).toList) = 0 := by
          rw [h0]
          rfl
        omega
      rw [handlePayment_of_valid env { st with cardNumber := formatCardNumber x } b hb hne h2 h3
        h4 (hiff.mpr h16)]
      dsimp only
      cases env.processPayment b.id st.paymentMethod <;> simp

/-- Claim C30. `formatCardNumber` is idempotent: formatting a formatted value gives
the same value. -/
theorem formatCardNumber_idempotent (x : String) :
    formatCardNumber (formatCardNumber x) = formatCardNumber x := by
  unfold formatCardNumber
  show String.mk (formatCardNumberChars (formatCardNumberChars x.toList)) = _
  rw [formatCardNumberChars_idem]

/-- Witness of claim C21: a pasted number of 16 digits with separators passes the
check once formatted. -/
theorem formatCardNumber_validation_witness :
    16 ≤ utf16Length (removeWhiteSpace (formatCardNumber "4111-1111-1111-1111").toList) :=
  (formatCardNumber_validation "4111-1111-1111-1111").1.mpr (by decide)

/-! ## Error, reset and repeated confirmation -/

/-- Claim C22 fails as stated: after a payment rejected with 'Card declined', going
back leads to the `select` step with that error still set; a click on a slot leaves it
set as well. -/
theorem error_survives_back :
    (handlePayment (payingBackend (.error cardDeclined)) paymentState).1.error
        = "Card declined" ∧
      (back (handlePayment (payingBackend (.error cardDeclined)) paymentState).1).1.step
        = Step.select ∧
      (back (handlePayment (payingBackend (.error cardDeclined)) paymentState).1).1.error
        = "Card declined" ∧
      (selectSlot failedPaymentState (hourSlot 36000000 true false)).error
        = "Card declined" := by
  refine ⟨by decide, by decide, by decide, by decide⟩

/-- Claim C22, amended. The error is cleared by the transitions that start a request,
once they are past their guards: a confirm whose `createBooking` resolves and a pay
whose `processPayment` resolves end with an empty error, whatever the error was
before; a confirm or pay that fails ends with the message of its own failure, not the
earlier one; the effect run for a closed modal, which follows Done or Cancel, empties
it, and so does the effect run for an open modal when its slot load resolves. A click
on a slot leaves the error as it was, and Done itself changes no cell. -/
theorem error_cleared_by_requests (st : State) :
    (∀ env slot tok b, st.selectedSlot = some slot → env.token = some tok → tok ≠ "" →
        env.createBooking
          { portId := env.portId, startTime := slot.startTime, endTime := slot.endTime,
            paymentMethod := st.paymentMethod } = .ok b →
        (handleBooking env st).1.error = "") ∧
      (∀ env slot tok err, st.selectedSlot = some slot → env.token = some tok → tok ≠ "" →
        env.createBooking
          { portId := env.portId, startTime := slot.startTime, endTime := slot.endTime,
            paymentMethod := st.paymentMethod } = .error err →
        (handleBooking env st).1.error = bookingErrorMessage err) ∧
      (∀ env slot, st.selectedSlot = some slot → env.token = none →
        (handleBooking env st).1.error = "Please log in to create a booking") ∧
      (∀ env b, st.booking = some b →
        st.cardNumber ≠ "" → st.cardExpiry ≠ "" → st.cardCVC ≠ "" → st.cardholderName ≠ "" →
        16 ≤ utf16Length (removeWhiteSpace st.cardNumber.toList) →
        (∀ paid, env.processPayment b.id st.paymentMethod = .ok paid →
          (handlePayment env st).1.error = "") ∧
        (∀ err, env.processPayment b.id st.paymentMethod = .error err →
          (handlePayment env st).1.error
            = orStr (err.response.bind (·.dataMessage)) "Payment failed. Please try again.")) ∧
      (∀ env b, st.booking = some b →
        (st.cardNumber = "" ∨ st.cardExpiry = "" ∨ st.cardCVC = "" ∨ st.cardholderName = "" ∨
          utf16Length (removeWhiteSpace st.cardNumber.toList) < 16) →
        (handlePayment env st).1.error = "Please fill in all payment details" ∨
          (handlePayment env st).1.error = "Please enter a valid card number") ∧
      (∀ props getAvailableSlots env, (props.isOpen && props.port.isSome) = false →
        (openCloseEffect props getAvailableSlots env st).1.error = "") ∧
      (∀ props getAvailableSlots env portId result, props.isOpen = true →
        props.port = some portId → getAvailableSlots portId = .ok result →
        (openCloseEffect props getAvailableSlots env st).1.error = "") ∧
      (∀ slot, (selectSlot st slot).error = st.error) ∧
      (∀ hasOnSuccess, (acknowledge hasOnSuccess st).1 = st) := by
  refine ⟨?_, ?_, ?_, ?_, ?_, ?_, ?_, ?_, fun _ => rfl⟩
  · intro env slot tok b hsel htok hne hcreate
    rw [handleBooking_ok env st slot tok b hsel htok hne hcreate]
  · intro env slot tok err hsel htok hne hcreate
    rw [handleBooking_of_rejected env st slot tok err hsel htok hne hcreate]
  · intro env slot hsel htok
    unfold handleBooking
    simp [hsel, htok, truthyStr]
  · intro env b hb h1 h2 h3 h4 h5
    rw [handlePayment_of_valid env st b hb h1 h2 h3 h4 h5]
    constructor
    · intro paid hp
      rw [hp]
    · intro err hp
      rw [hp]
  · intro env b hb hinv
    rcases handlePayment_of_invalid env st b hb hinv with h | h <;> rw [h] <;> simp
  · intro props g env hclosed
    unfold openCloseEffect
    simp [hclosed]
  · intro props g env portId result hopen hport hslots
    unfold openCloseEffect loadSlots loadSubscriptionInfo
    simp only [hopen, hport, hslots, Option.isSome_some, Bool.and_self, if_true]
    cases result <;> cases env.checkBookingLimit <;> rfl
  · intro slot
    unfold selectSlot
    dsimp only
    split <;> rfl

/-- Witness of claim C22 as amended: from the state of the failed payment, a payment
that is accepted ends with an empty error, and so does the close of the modal. -/
theorem error_cleared_by_requests_witness :
    (handlePayment (payingBackend (.ok pendingBooking)) failedPaymentState).1.error = "" ∧
      (openCloseEffect { isOpen := false, port := none } (fun _ => .ok SlotsResult.other)
        (backend "paid" (.ok activeSubscription)) failedPaymentState).1.error = "" :=
  have h := error_cleared_by_requests failedPaymentState
  ⟨(h.2.2.2.1 (payingBackend (.ok pendingBooking)) pendingBooking rfl (by decide) (by decide)
      (by decide) (by decide) (by decide)).1 pendingBooking rfl,
    h.2.2.2.2.2.1 _ _ _ rfl⟩

/-- Claim C23, evaluated on the code. From a session with a selected slot, a booking
and an error, the effect run for a closed modal gives a state with the initial values
of step, selected slot, booking and error. The effect run for the modal open on
another port sets the step to `select` and unsets the booking, and the error is
emptied by the slot load; but the selected slot is still the slot selected for the
port before. -/
theorem reopen_keeps_selected_slot :
    failedPaymentState.selectedSlot = some (hourSlot 32400000 true false) ∧
      (openCloseEffect { isOpen := false, port := none } (fun _ => .ok (SlotsResult.array []))
        (backend "paid" (.ok noSubscription)) failedPaymentState).1.selectedSlot = none ∧
      (openCloseEffect { isOpen := false, port := none } (fun _ => .ok (SlotsResult.array []))
        (backend "paid" (.ok noSubscription)) failedPaymentState).1.step = Step.select ∧
      (openCloseEffect { isOpen := false, port := none } (fun _ => .ok (SlotsResult.array []))
        (backend "paid" (.ok noSubscription)) failedPaymentState).1.booking = none ∧
      (openCloseEffect { isOpen := false, port := none } (fun _ => .ok (SlotsResult.array []))
        (backend "paid" (.ok noSubscription)) failedPaymentState).1.error = "" ∧
      (openCloseEffect { isOpen := true, port := some 2 }
        (fun _ => .ok (SlotsResult.array [hourSlot 122400000 true false]))
        (backend "paid" (.ok noSubscription)) failedPaymentState).1.selectedSlot
        = some (hourSlot 32400000 true false) ∧
      (openCloseEffect { isOpen := true, port := some 2 }
        (fun _ => .ok (SlotsResult.array [hourSlot 122400000 true false]))
        (backend "paid" (.ok noSubscription)) failedPaymentState).1.step = Step.select ∧
      (openCloseEffect { isOpen := true, port := some 2 }
        (fun _ => .ok (SlotsResult.array [hourSlot 122400000 true false]))
        (backend "paid" (.ok noSubscription)) failedPaymentState).1.booking = none ∧
      (openCloseEffect { isOpen := true, port := some 2 }
        (fun _ => .ok (SlotsResult.array [hourSlot 122400000 true false]))
        (backend "paid" (.ok noSubscription)) failedPaymentState).1.error = "" ∧
      (openCloseEffect { isOpen := true, port := some 2 }
        (fun _ => .ok (SlotsResult.array [hourSlot 122400000 true false]))
        (backend "paid" (.ok noSubscription)) failedPaymentState).1.slots
        = [hourSlot 122400000 true false] := by
  refine ⟨by decide, by decide, by decide, by decide, by decide, by decide, by decide,
    by decide, by decide, by decide⟩

/-- Claim C28. After a confirm that created the booking `b1`, going back and
confirming again with the selection kept calls `createBooking` a second time with the
port, start time and end time of the first call; when it resolves to `b2` the booking
becomes `b2`. The calls made by going back and by the second confirm are that
`createBooking` and the status request: none refers to the id of `b1`. -/
theorem confirm_again_books_again (env1 env2 : Env) (st : State) (slot : Slot)
    (tok1 tok2 : String) (b1 b2 : Booking)
    (hsel : st.selectedSlot = some slot)
    (htok1 : env1.token = some tok1) (hne1 : tok1 ≠ "")
    (hc1 : env1.createBooking
      { portId := env1.portId, startTime := slot.startTime, endTime := slot.endTime,
        paymentMethod := st.paymentMethod } = .ok b1)
    (hport : env2.portId = env1.portId)
    (htok2 : env2.token = some tok2) (hne2 : tok2 ≠ "")
    (hc2 : env2.createBooking
      { portId := env1.portId, startTime := slot.startTime, endTime := slot.endTime,
        paymentMethod := st.paymentMethod } = .ok b2) :
    (handleBooking env1 st).1.booking = some b1 ∧
      (handleBooking env1 st).2 =
        [Call.createBooking
          { portId := env1.portId, startTime := slot.startTime, endTime := slot.endTime,
            paymentMethod := st.paymentMethod },
         Call.checkBookingLimit] ∧
      (back (handleBooking env1 st).1).1.step = Step.select ∧
      (back (handleBooking env1 st).1).1.booking = some b1 ∧
      (back (handleBooking env1 st).1).1.selectedSlot = some slot ∧
      (back (handleBooking env1 st).1).2 = [] ∧
      (handleBooking env2 (back (handleBooking env1 st).1).1).2 =
        [Call.createBooking
          { portId := env1.portId, startTime := slot.startTime, endTime := slot.endTime,
            paymentMethod := st.paymentMethod },
         Call.checkBookingLimit] ∧
      (handleBooking env2 (back (handleBooking env1 st).1).1).1.booking = some b2 ∧
      (∀ c ∈ (back (handleBooking env1 st).1).2
          ++ (handleBooking env2 (back (handleBooking env1 st).1).1).2,
        (∃ req, c = Call.createBooking req) ∨ c = Call.checkBookingLimit) := by
  have h1 := handleBooking_ok env1 st slot tok1 b1 hsel htok1 hne1 hc1
  have hsel2 : (back (handleBooking env1 st).1).1.selectedSlot = some slot := by
    rw [h1]
    exact hsel
  have hpm : (back (handleBooking env1 st).1).1.paymentMethod = st.paymentMethod := by
    rw [h1]
    rfl
  have h2 := handleBooking_ok env2 (back (handleBooking env1 st).1).1 slot tok2 b2 hsel2 htok2
    hne2 (by rw [hport, hpm]; exact hc2)
  rw [hport, hpm] at h2
  refine ⟨by rw [h1], by rw [h1], rfl, by rw [h1]; rfl, hsel2, rfl, by rw [h2], by rw [h2], ?_⟩
  intro c hc
  rw [h2] at hc
  simp only [back, List.nil_append, List.mem_cons, List.mem_singleton, List.not_mem_nil,
    or_false] at hc
  rcases hc with hc | hc
  · exact Or.inl ⟨_, hc⟩
  · exact Or.inr hc

/-- Witness of claim C28: a first confirm that leads to the payment step, Back, and a
second confirm. -/
theorem confirm_again_books_again_witness :
    (handleBooking (backend "pending" (.ok noSubscription))
        (back (handleBooking (backend "pending" (.ok noSubscription)) selectedState).1).1).2
      = [Call.createBooking
          { portId := 1, startTime := 32400000, endTime := 36000000,
            paymentMethod := "credit_card" },
         Call.checkBookingLimit] :=
  (confirm_again_books_again (backend "pending" (.ok noSubscription))
    (backend "pending" (.ok noSubscription)) selectedState (hourSlot 32400000 true false)
    "token" "token" pendingBooking pendingBooking rfl rfl (by decide) rfl rfl rfl (by decide)
    rfl).2.2.2.2.2.2.1

/-! ## The slot table under permutation of the slot list -/

theorem dates_perm_of_perm (z : Zone) (slots slots' : List Slot) (hperm : slots.Perm slots') :
    (dates z slots).Perm (dates z slots') := by
  refine (List.perm_ext_iff_of_nodup (nodup_dates z slots) (nodup_dates z slots')).mpr
    fun d => ?_
  rw [mem_dates, mem_dates]
  constructor
  · rintro ⟨s, hmem, hd⟩
    exact ⟨s, hperm.mem_iff.mp hmem, hd⟩
  · rintro ⟨s, hmem, hd⟩
    exact ⟨s, hperm.mem_iff.mpr hmem, hd⟩

theorem slotsAt_length_le_one (z : Zone) (slots : List Slot) (date hour : Int)
    (hkeys : (slots.map (slotKey z)).Nodup) : (slotsAt z slots date hour).length ≤ 1 := by
  induction slots with
  | nil => simp [slotsAt]
  | cons s rest ih =>
    rw [List.map_cons, List.nodup_cons] at hkeys
    have ih' := ih hkeys.2
    unfold slotsAt at *
    by_cases hk : toDateString z s.startTime = date ∧ getHours z s.startTime = hour
    · rw [List.filter_cons_of_pos (by simpa using hk)]
      have hnil : List.filter (fun s => decide (toDateString z s.startTime = date ∧
          getHours z s.startTime = hour)) rest = [] := by
        rw [List.filter_eq_nil_iff]
        intro a ha hka
        apply hkeys.1
        have hka' : toDateString z a.startTime = date ∧ getHours z a.startTime = hour := by
          simpa using hka
        refine List.mem_map.mpr ⟨a, ha, ?_⟩
        unfold slotKey
        rw [hka'.1, hka'.2, hk.1, hk.2]
      rw [hnil]
      simp
    · rw [List.filter_cons_of_neg (by simpa using hk)]
      exact ih'

theorem cell_of_perm (z : Zone) (slots slots' : List Slot)
    (hperm : slots.Perm slots') (hkeys : (slots.map (slotKey z)).Nodup) (date hour : Int) :
    cell z slots date hour = cell z slots' date hour := by
  rw [cell_eq_getLast?, cell_eq_getLast?]
  have hp : (slotsAt z slots date hour).Perm (slotsAt z slots' date hour) := by
    unfold slotsAt
    exact hperm.filter _
  have h1 := slotsAt_length_le_one z slots date hour hkeys
  have heq : slotsAt z slots date hour = slotsAt z slots' date hour := by
    match hl : slotsAt z slots date hour, h1 with
    | [], _ =>
      rw [hl] at hp
      exact (List.nil_perm.mp hp).symm
    | [a], _ =>
      rw [hl] at hp
      exact (List.perm_singleton.mp hp.symm).symm
  rw [heq]

/-- Claim C29, evaluated on the code. For a slot list in which no two slots have the
same (local day, local hour) key, every permutation of the list gives the same content
of every cell and the same set of dates, but not always the same order of the date
columns. The sort compares the dates that `new Date` reads back from the date keys,
and the parser reads the key of 1 June of the year 50, `Wed Jun 01 0050`, as 1 June
1950: the comparator is zero on that key and the key of 1 June 1950, and the stable
sort leaves the two in the order of the input. In UTC the two slots that start at
09:00 on these days give the columns `[0050, 1950]` in one order of the list and
`[1950, 0050]` in the other. -/
theorem dates_depend_on_order :
    (∀ (z : Zone) (slots slots' : List Slot), slots.Perm slots' →
        (slots.map (slotKey z)).Nodup →
        (∀ date hour, cell z slots date hour = cell z slots' date hour) ∧
          (dates z slots).Perm (dates z slots')) ∧
      ([hourSlot (instantOf 50 6 1 9) true false,
          hourSlot (instantOf 1950 6 1 9) true false].map (slotKey utc)).Nodup ∧
      compareDates utc (daysFromCivil 50 6 1) (daysFromCivil 1950 6 1) = some 0 ∧
      dates utc [hourSlot (instantOf 50 6 1 9) true false,
          hourSlot (instantOf 1950 6 1 9) true false]
        = [daysFromCivil 50 6 1, daysFromCivil 1950 6 1] ∧
      dates utc [hourSlot (instantOf 1950 6 1 9) true false,
          hourSlot (instantOf 50 6 1 9) true false]
        = [daysFromCivil 1950 6 1, daysFromCivil 50 6 1] ∧
      tableBody utc [hourSlot (instantOf 50 6 1 9) true false,
          hourSlot (instantOf 1950 6 1 9) true false]
        ≠ tableBody utc [hourSlot (instantOf 1950 6 1 9) true false,
          hourSlot (instantOf 50 6 1 9) true false] := by
  refine ⟨fun z slots slots' hperm hkeys =>
      ⟨cell_of_perm z slots slots' hperm hkeys, dates_perm_of_perm z slots slots' hperm⟩,
    by decide, by decide, by decide, by decide, ?_⟩
  intro h
  have h1 := congrArg (fun body => body.map fun row => row.2.map Prod.fst) h
  simp only [tableBody, List.map_map] at h1
  revert h1
  rw [generateTimeSlots_eq]
  decide

/-! ## Properties of the response interceptor -/

theorem objGet_removeItem (storage : List (String × String)) (key k : String) :
    objGet (removeItem storage key) k = if k = key then none else objGet storage k := by
  induction storage with
  | nil => simp [removeItem, objGet]
  | cons kv rest ih =>
    obtain ⟨k0, v0⟩ := kv
    unfold removeItem at *
    by_cases h0 : k0 = key
    · subst h0
      rw [List.filter_cons_of_neg (by simp), ih]
      by_cases hk : k = k0
      · simp [hk]
      · simp [hk, objGet, Ne.symm hk]
    · rw [List.filter_cons_of_pos (by simpa using h0)]
      by_cases hk : k = key
      · subst hk
        simp only [objGet, h0, if_false, ih, if_true]
      · by_cases hk0 : k0 = k
        · simp [objGet, hk0, hk]
        · simp only [objGet, hk0, if_false, ih, hk]

/-- Claim C25. The rejection handler of the response interceptor always returns the
rejection of the error it was given. For a response of status 401 the stored
`accessToken` is removed, the other keys of the storage are kept, and `/login` is
assigned to the location exactly when the current path is none of `/login`, `/signup`
and `/admin/login` (the location is untouched otherwise). For another status, or
without a response, storage and location are unchanged. -/
theorem onResponseError_spec (error : ApiError) (w : Browser) :
    (onResponseError error w).2 = .error error ∧
      (error.response.map (·.status) = some 401 →
        objGet (onResponseError error w).1.storage "accessToken" = none ∧
        (∀ k, k ≠ "accessToken" →
          objGet (onResponseError error w).1.storage k = objGet w.storage k) ∧
        (onResponseError error w).1.pathname = w.pathname ∧
        ((w.pathname ≠ "/login" ∧ w.pathname ≠ "/signup" ∧ w.pathname ≠ "/admin/login") →
          (onResponseError error w).1.href = some "/login") ∧
        (¬(w.pathname ≠ "/login" ∧ w.pathname ≠ "/signup" ∧ w.pathname ≠ "/admin/login") →
          (onResponseError error w).1.href = w.href)) ∧
      (error.response.map (·.status) ≠ some 401 → (onResponseError error w).1 = w) := by
  unfold onResponseError
  refine ⟨by split <;> rfl, fun h401 => ?_, fun h401 => ?_⟩
  · simp only [h401, beq_self_eq_true, if_true]
    refine ⟨?_, ?_, ?_, ?_, ?_⟩
    · split <;> simp [objGet_removeItem]
    · intro k hk
      split <;> simp [objGet_removeItem, hk]
    · split <;> rfl
    · intro hp
      simp [hp.1, hp.2.1, hp.2.2]
    · intro hp
      rw [if_neg]
      intro hc
      apply hp
      have hc' : (w.pathname ≠ "/login" ∧ w.pathname ≠ "/signup") ∧
          w.pathname ≠ "/admin/login" := by simpa using hc
      exact ⟨hc'.1.1, hc'.1.2, hc'.2⟩
  · rw [if_neg]
    simpa using h401

/-- Witness of claim C25: an expired token on the bookings page, and on the log-in
page. -/
theorem onResponseError_spec_witness :
    (onResponseError { response := some { status := 401, dataMessage := none }, message := "" }
        { storage := [("accessToken", "t")], pathname := "/bookings", href := none }).1.href
        = some "/login" ∧
      (onResponseError { response := some { status := 401, dataMessage := none }, message := "" }
        { storage := [("accessToken", "t")], pathname := "/login", href := none }).1.href
        = none :=
  ⟨((onResponseError_spec
      { response := some { status := 401, dataMessage := none }, message := "" }
      { storage := [("accessToken", "t")], pathname := "/bookings", href := none }).2.1
      rfl).2.2.2.1 (by decide),
    ((onResponseError_spec
      { response := some { status := 401, dataMessage := none }, message := "" }
      { storage := [("accessToken", "t")], pathname := "/login", href := none }).2.1
      rfl).2.2.2.2 (by decide)⟩

/-! ## Invariants of the serialized transitions -/

theorem handleBooking_cases (env : Env) (st : State) :
    handleBooking env st = (st, []) ∨
      handleBooking env st = ({ st with error := "Please log in to create a booking" }, []) ∨
      (∃ slot b, st.selectedSlot = some slot ∧
        env.createBooking
          { portId := env.portId, startTime := slot.startTime, endTime := slot.endTime,
            paymentMethod := st.paymentMethod } = .ok b ∧
        handleBooking env st =
          ({ st with
              loading := false
              error := ""
              booking := some b
              subscriptionInfo := env.checkBookingLimit.toOption
              step := if b.paymentStatus == "paid" && hasSubscription? st.subscriptionInfo
                then Step.subscription else Step.payment },
           [Call.createBooking
              { portId := env.portId, startTime := slot.startTime, endTime := slot.endTime,
                paymentMethod := st.paymentMethod },
            Call.checkBookingLimit])) ∨
      (∃ slot err, st.selectedSlot = some slot ∧
        env.createBooking
          { portId := env.portId, startTime := slot.startTime, endTime := slot.endTime,
            paymentMethod := st.paymentMethod } = .error err ∧
        handleBooking env st =
          ({ st with loading := false, error := bookingErrorMessage err },
           [Call.createBooking
              { portId := env.portId, startTime := slot.startTime, endTime := slot.endTime,
                paymentMethod := st.paymentMethod }])) := by
  rcases Option.eq_none_or_eq_some st.selectedSlot with hsel | ⟨slot, hsel⟩
  · left
    unfold handleBooking
    rw [hsel]
  · cases htok : env.token with
    | none =>
      right; left
      unfold handleBooking
      simp [hsel, htok, truthyStr]
    | some tok =>
      by_cases hne : tok = ""
      · right; left
        unfold handleBooking
        simp [hsel, htok, truthyStr, hne]
      · cases hcreate : env.createBooking
          { portId := env.portId, startTime := slot.startTime, endTime := slot.endTime,
            paymentMethod := st.paymentMethod } with
        | ok b =>
          right; right; left
          exact ⟨slot, b, hsel, hcreate, handleBooking_ok env st slot tok b hsel htok hne hcreate⟩
        | error err =>
          right; right; right
          exact ⟨slot, err, hsel, hcreate,
            handleBooking_of_rejected env st slot tok err hsel htok hne hcreate⟩

theorem handlePayment_frame (env : PaymentEnv) (st : State) :
    (handlePayment env st).1.selectedSlot = st.selectedSlot ∧
      (handlePayment env st).1.booking = st.booking ∧
      (handlePayment env st).1.step = st.step := by
  unfold handlePayment
  split
  · exact ⟨rfl, rfl, rfl⟩
  · split
    · exact ⟨rfl, rfl, rfl⟩
    · split
      · exact ⟨rfl, rfl, rfl⟩
      · split <;> exact ⟨rfl, rfl, rfl⟩

theorem openCloseEffect_frame (props : Props)
    (getAvailableSlots : Nat → Except ApiError SlotsResult) (env : Env) (st : State) :
    ((openCloseEffect props getAvailableSlots env st).1.selectedSlot = st.selectedSlot ∨
        (openCloseEffect props getAvailableSlots env st).1.selectedSlot = none) ∧
      (openCloseEffect props getAvailableSlots env st).1.booking = none ∧
      (openCloseEffect props getAvailableSlots env st).1.step = Step.select := by
  unfold openCloseEffect
  split
  · refine ⟨Or.inl ?_, rfl, rfl⟩
    unfold loadSlots loadSubscriptionInfo
    cases props.port with
    | none => dsimp only; split <;> rfl
    | some portId =>
      dsimp only
      cases getAvailableSlots portId with
      | error e => dsimp only; split <;> rfl
      | ok r => cases r <;> dsimp only <;> split <;> rfl
  · exact ⟨Or.inr rfl, rfl, rfl⟩

theorem sessionInvariant_apply (t : Transition) (st : State) (created : List Booking)
    (h : SessionInvariant (st, created)) :
    SessionInvariant ((t.apply st).1, created ++ t.created st) := by
  obtain ⟨h1, h2, h3⟩ := h
  dsimp only at h1 h2 h3
  cases t with
  | selectSlot slot =>
    unfold SessionInvariant Transition.apply Transition.created selectSlot
    dsimp only
    by_cases hs : (slot.available && !slot.past) = true
    · rw [if_pos hs]
      refine ⟨fun s hsel => ?_, fun b hb => by simpa using h2 b hb, fun hstep => ?_⟩
      · cases hsel
        simpa using hs
      · exact ⟨rfl, (h3 hstep).2⟩
    · rw [if_neg hs]
      exact ⟨h1, fun b hb => by simpa using h2 b hb, h3⟩
  | confirm env =>
    unfold SessionInvariant Transition.apply Transition.created
    dsimp only
    rcases handleBooking_cases env st with h | h | ⟨slot, b, hsel, hcreate, h⟩ |
      ⟨slot, err, hsel, hcreate, h⟩
    · rw [h]
      exact ⟨h1, fun b hb => by simpa using h2 b hb, h3⟩
    · rw [h]
      exact ⟨h1, fun b hb => by simpa using h2 b hb, h3⟩
    · rw [h]
      refine ⟨h1, fun b' hb' => ?_, fun _ => ⟨by rw [hsel]; rfl, rfl⟩⟩
      have : b' = b := (Option.some.inj hb').symm
      subst this
      simp [hcreate, Except.toOption]
    · rw [h]
      exact ⟨h1, fun b hb => List.mem_append_left _ (h2 b hb), h3⟩
  | back =>
    unfold SessionInvariant Transition.apply Transition.created back
    exact ⟨h1, fun b hb => by simpa using h2 b hb, fun hstep => absurd rfl hstep⟩
  | pay env =>
    unfold SessionInvariant Transition.apply Transition.created
    dsimp only
    obtain ⟨f1, f2, f3⟩ := handlePayment_frame env st
    rw [f1, f2, f3]
    exact ⟨h1, fun b hb => by simpa using h2 b hb, h3⟩
  | acknowledge hasOnSuccess =>
    unfold SessionInvariant Transition.apply Transition.created acknowledge
    exact ⟨h1, fun b hb => by simpa using h2 b hb, h3⟩
  | effect props getAvailableSlots env =>
    unfold SessionInvariant Transition.apply Transition.created
    dsimp only
    obtain ⟨f1, f2, f3⟩ := openCloseEffect_frame props getAvailableSlots env st
    rw [f2, f3]
    refine ⟨fun s hsel => ?_, fun b hb => (by cases hb), fun hstep => absurd rfl hstep⟩
    rcases f1 with f1 | f1
    · rw [f1] at hsel
      exact h1 s hsel
    · rw [f1] at hsel
      cases hsel

theorem sessionInvariant_run (ts : List Transition) :
    ∀ (st : State) (created : List Booking), SessionInvariant (st, created) →
      SessionInvariant (runTransitions ts st created) := by
  induction ts with
  | nil => exact fun _ _ h => h
  | cons t rest ih =>
    intro st created h
    unfold runTransitions
    exact ih _ _ (sessionInvariant_apply t st created h)

theorem sessionInvariant_init : SessionInvariant (State.init, []) := by
  refine ⟨fun s hs => ?_, fun b hb => ?_, fun hstep => absurd rfl hstep⟩
  · cases hs
  · cases hb

/-- Claim C26. In every state reached from the initial state by clicks on slot cells,
confirms, Back, pays, Done and runs of the open/close effect, each with any outcome,
the selected slot is unset or a slot that is available and not past; so a
`createBooking` call made by `handleBooking` in such a state carries the start and end
time of a selected slot that is available and not past. -/
theorem selected_slot_was_selectable (ts : List Transition) :
    (∀ s, (runTransitions ts State.init []).1.selectedSlot = some s →
        s.available = true ∧ s.past = false) ∧
      (∀ env req,
        Call.createBooking req ∈ (handleBooking env (runTransitions ts State.init []).1).2 →
        ∃ s, (runTransitions ts State.init []).1.selectedSlot = some s ∧
          s.available = true ∧ s.past = false ∧
          req.startTime = s.startTime ∧ req.endTime = s.endTime) := by
  have hinv := (sessionInvariant_run ts State.init [] sessionInvariant_init).1
  refine ⟨hinv, fun env req hmem => ?_⟩
  rcases handleBooking_cases env (runTransitions ts State.init []).1 with h | h |
    ⟨slot, b, hsel, _, h⟩ | ⟨slot, err, hsel, _, h⟩
  · rw [h] at hmem
    simp at hmem
  · rw [h] at hmem
    simp at hmem
  · rw [h] at hmem
    simp only [List.mem_cons, Call.createBooking.injEq, List.mem_singleton, reduceCtorEq,
      List.not_mem_nil, or_false] at hmem
    subst hmem
    exact ⟨slot, hsel, (hinv slot hsel).1, (hinv slot hsel).2, rfl, rfl⟩
  · rw [h] at hmem
    simp only [List.mem_singleton, Call.createBooking.injEq] at hmem
    subst hmem
    exact ⟨slot, hsel, (hinv slot hsel).1, (hinv slot hsel).2, rfl, rfl⟩

/-- Witness of claim C26: after clicks on a booked slot and on an available one, the
confirm sends the times of the available one. -/
theorem selected_slot_was_selectable_witness :
    (runTransitions
        [Transition.selectSlot (hourSlot 32400000 true false),
          Transition.selectSlot (hourSlot 36000000 false false)]
        State.init []).1.selectedSlot = some (hourSlot 32400000 true false) ∧
      (hourSlot 32400000 true false).available = true :=
  ⟨by decide,
    ((selected_slot_was_selectable
      [Transition.selectSlot (hourSlot 32400000 true false),
        Transition.selectSlot (hourSlot 36000000 false false)]).1
      (hourSlot 32400000 true false) (by decide)).1⟩

/-- Claim C27. In every state reached from the initial state by serialized transitions
(clicks on slot cells, confirms, Back, pays, Done, runs of the open/close effect, each
with any outcome), if the step is `payment` or `subscription` then a slot is
selected and the booking is set, to a booking that a `createBooking` call of an
earlier confirm resolved to. So the views of these steps read the times of a set
slot. -/
theorem views_have_slot_and_booking (ts : List Transition)
    (hstep : (runTransitions ts State.init []).1.step = Step.payment ∨
      (runTransitions ts State.init []).1.step = Step.subscription) :
    (∃ s, (runTransitions ts State.init []).1.selectedSlot = some s) ∧
      ∃ b, (runTransitions ts State.init []).1.booking = some b ∧
        b ∈ (runTransitions ts State.init []).2 := by
  obtain ⟨_, h2, h3⟩ := sessionInvariant_run ts State.init [] sessionInvariant_init
  have hne : (runTransitions ts State.init []).1.step ≠ Step.select := by
    rcases hstep with h | h <;> rw [h] <;> decide
  obtain ⟨hs, hb⟩ := h3 hne
  obtain ⟨s, hs'⟩ := Option.isSome_iff_exists.mp hs
  obtain ⟨b, hb'⟩ := Option.isSome_iff_exists.mp hb
  exact ⟨⟨s, hs'⟩, b, hb', h2 b hb'⟩

/-- Witness of claim C27: a click on a slot and a confirm that leads to the payment
step. -/
theorem views_have_slot_and_booking_witness :
    ∃ b, (runTransitions
        [Transition.selectSlot (hourSlot 32400000 true false),
          Transition.confirm (backend "pending" (.ok noSubscription))]
        State.init []).1.booking = some b ∧
      b ∈ (runTransitions
        [Transition.selectSlot (hourSlot 32400000 true false),
          Transition.confirm (backend "pending" (.ok noSubscription))]
        State.init []).2 :=
  (views_have_slot_and_booking
    [Transition.selectSlot (hourSlot 32400000 true false),
      Transition.confirm (backend "pending" (.ok noSubscription))]
    (Or.inl (by decide))).2

/-! ## Suspended calls and the reset of the flow -/

/-- The events of a confirm whose `createBooking` resolves, one after the other, give
the state and the calls of `handleBooking`. -/
theorem handleBooking_as_events (env : Env) (st : State) (slot : Slot) (tok : String)
    (b : Booking)
    (hsel : st.selectedSlot = some slot) (htok : env.token = some tok) (hne : tok ≠ "")
    (hcreate : env.createBooking
      { portId := env.portId, startTime := slot.startTime, endTime := slot.endTime,
        paymentMethod := st.paymentMethod } = .ok b) :
    (((({ state := st, pending := [], calls := [] } : Session).step
          (Event.confirm env.portId env.token)).step
        (Event.settle 0 (Settlement.booking (.ok b)))).step
      (Event.settle 0 (Settlement.subscription env.checkBookingLimit)))
      = { state := (handleBooking env st).1, pending := [], calls := (handleBooking env st).2 } := by
  have h1 : (tok != "") = true := by simpa using hne
  rw [handleBooking_ok env st slot tok b hsel htok hne hcreate]
  cases hlim : env.checkBookingLimit <;>
    simp [Session.step, startBooking, resume, hsel, htok, truthyStr, h1, Except.toOption] <;>
    split <;> simp_all

/-- The events of a confirm whose `createBooking` is rejected give the state and the
calls of `handleBooking`. -/
theorem handleBooking_as_events_rejected (env : Env) (st : State) (slot : Slot) (tok : String)
    (err : ApiError)
    (hsel : st.selectedSlot = some slot) (htok : env.token = some tok) (hne : tok ≠ "")
    (hcreate : env.createBooking
      { portId := env.portId, startTime := slot.startTime, endTime := slot.endTime,
        paymentMethod := st.paymentMethod } = .error err) :
    ((({ state := st, pending := [], calls := [] } : Session).step
          (Event.confirm env.portId env.token)).step
        (Event.settle 0 (Settlement.booking (.error err))))
      = { state := (handleBooking env st).1, pending := [], calls := (handleBooking env st).2 } := by
  have h1 : (tok != "") = true := by simpa using hne
  rw [handleBooking_of_rejected env st slot tok err hsel htok hne hcreate]
  simp [Session.step, startBooking, resume, hsel, htok, truthyStr, h1]

/-- The events of a run of the effect for an open modal, with the two loads settled
one after the other, give the state and the calls of `openCloseEffect`; for a closed
modal the run of the effect alone does. -/
theorem openCloseEffect_as_events (props : Props)
    (getAvailableSlots : Nat → Except ApiError SlotsResult) (env : Env) (st : State) :
    (∀ portId, props.isOpen = true → props.port = some portId →
      (((({ state := st, pending := [], calls := [] } : Session).step (Event.effect props)).step
          (Event.settle 0 (Settlement.slots (getAvailableSlots portId)))).step
        (Event.settle 0 (Settlement.subscription env.checkBookingLimit)))
        = { state := (openCloseEffect props getAvailableSlots env st).1, pending := [],
            calls := (openCloseEffect props getAvailableSlots env st).2 }) ∧
      ((props.isOpen && props.port.isSome) = false →
        (({ state := st, pending := [], calls := [] } : Session).step (Event.effect props))
          = { state := (openCloseEffect props getAvailableSlots env st).1, pending := [],
              calls := (openCloseEffect props getAvailableSlots env st).2 }) := by
  constructor
  · intro portId hopen hport
    cases hslots : getAvailableSlots portId with
    | error e =>
      cases hlim : env.checkBookingLimit <;>
        simp [Session.step, startEffect, startLoadSlots, resume, openCloseEffect, loadSlots,
          loadSubscriptionInfo, hopen, hport, hslots, hlim]
    | ok r =>
      cases r <;> cases hlim : env.checkBookingLimit <;>
        simp [Session.step, startEffect, startLoadSlots, resume, openCloseEffect, loadSlots,
          loadSubscriptionInfo, hopen, hport, hslots, hlim]
  · intro hclosed
    simp [Session.step, startEffect, openCloseEffect, hclosed]

/-- The events of a pay with the form filled in as required give the state and the
calls of `handlePayment`. -/
theorem handlePayment_as_events (env : PaymentEnv) (st : State) (b : Booking)
    (hb : st.booking = some b)
    (h1 : st.cardNumber ≠ "") (h2 : st.cardExpiry ≠ "") (h3 : st.cardCVC ≠ "")
    (h4 : st.cardholderName ≠ "")
    (h5 : 16 ≤ utf16Length (removeWhiteSpace st.cardNumber.toList)) :
    ((({ state := st, pending := [], calls := [] } : Session).step
          (Event.pay env.hasOnSuccess)).step
        (Event.settle 0 (Settlement.booking (env.processPayment b.id st.paymentMethod))))
      = { state := (handlePayment env st).1, pending := [], calls := (handlePayment env st).2 } := by
  rw [handlePayment_of_valid env st b hb h1 h2 h3 h4 h5]
  have e1 := (truthyStr_some st.cardNumber).mpr h1
  have e2 := (truthyStr_some st.cardExpiry).mpr h2
  have e3 := (truthyStr_some st.cardCVC).mpr h3
  have e4 := (truthyStr_some st.cardholderName).mpr h4
  have h5' : ¬utf16Length (removeWhiteSpace st.cardNumber.data) < 16 := Nat.not_lt.mpr h5
  cases hp : env.processPayment b.id st.paymentMethod <;>
    simp [Session.step, startPayment, resume, hb, e1, e2, e3, e4, h5']

/-- Claim C24 fails as stated. The confirm button is clicked and the flow is reset
while `createBooking` is outstanding: the reset leaves the call suspended, its later
resolution sets the booking of the reset session, and the resolution of the status
request that follows sets the subscription status and the step `payment`. Likewise
the slots or the error of a slot load started before a reset are set after it. -/
theorem settlement_after_reset_applies :
    confirmThenReset.state.booking = none ∧
      confirmThenReset.state.step = Step.select ∧
      confirmThenReset.state.selectedSlot = none ∧
      confirmThenReset.pending = [Pending.createBooking selectedState] ∧
      (confirmThenReset.step
        (Event.settle 0 (Settlement.booking (.ok pendingBooking)))).state.booking
        = some pendingBooking ∧
      ((confirmThenReset.step (Event.settle 0 (Settlement.booking (.ok pendingBooking)))).step
        (Event.settle 0 (Settlement.subscription (.ok activeSubscription)))).state.step
        = Step.payment ∧
      ((confirmThenReset.step (Event.settle 0 (Settlement.booking (.ok pendingBooking)))).step
        (Event.settle 0 (Settlement.subscription (.ok activeSubscription)))).state.subscriptionInfo
        = some activeSubscription ∧
      (confirmThenReset.step
        (Event.settle 0 (Settlement.booking (.error cardDeclined)))).state.error
        = "Card declined" ∧
      openThenReset.state.slots = [] ∧
      (openThenReset.step
        (Event.settle 0
          (Settlement.slots (.ok (SlotsResult.array [hourSlot 32400000 true false]))))).state.slots
        = [hourSlot 32400000 true false] := by
  refine ⟨by decide, by decide, by decide, by decide, by decide, by decide, by decide,
    by decide, by decide, by decide⟩

theorem step_reset (sess : Session) :
    sess.step Event.reset =
      { state :=
          { sess.state with
            slots := []
            selectedSlot := none
            error := ""
            step := Step.select
            booking := none
            subscriptionInfo := none }
        pending := sess.pending
        calls := sess.calls } := by
  simp [Session.step, Event.reset, startEffect]

/-- Claim C24, amended. The source has no stale-response guard. A reset of the flow
resets cells of the state and leaves every outstanding call suspended; the later
settlement of a call started before the reset is applied to the state as it is after
the reset: a resolved `createBooking` sets the booking, a rejected one the error; a
resolved `getAvailableSlots` sets the slots, a rejected one the error; a resolved
`checkBookingLimit` sets the subscription status; and the status request of a confirm
sets the step to `payment` or `subscription`. -/
theorem settlement_is_applied (sess : Session) (i : Nat) :
    (sess.step Event.reset).pending = sess.pending ∧
      (sess.step Event.reset).state.booking = none ∧
      (sess.step Event.reset).state.step = Step.select ∧
      (∀ snap b, sess.pending[i]? = some (Pending.createBooking snap) →
        ((sess.step Event.reset).step
          (Event.settle i (Settlement.booking (.ok b)))).state.booking = some b) ∧
      (∀ snap err, sess.pending[i]? = some (Pending.createBooking snap) →
        ((sess.step Event.reset).step
          (Event.settle i (Settlement.booking (.error err)))).state.error
          = bookingErrorMessage err) ∧
      (∀ slots, sess.pending[i]? = some Pending.getAvailableSlots →
        ((sess.step Event.reset).step
          (Event.settle i (Settlement.slots (.ok (SlotsResult.array slots))))).state.slots
          = slots) ∧
      (∀ err, sess.pending[i]? = some Pending.getAvailableSlots →
        ((sess.step Event.reset).step
          (Event.settle i (Settlement.slots (.error err)))).state.error
          = orStr (err.response.bind (·.dataMessage))
              (orStr (some err.message) "Failed to load available slots")) ∧
      (∀ info, sess.pending[i]? = some Pending.checkBookingLimit →
        ((sess.step Event.reset).step
          (Event.settle i (Settlement.subscription (.ok info)))).state.subscriptionInfo
          = some info) ∧
      (∀ snap b r, sess.pending[i]? = some (Pending.refresh snap b) →
        ((sess.step Event.reset).step
            (Event.settle i (Settlement.subscription r))).state.step = Step.payment ∨
          ((sess.step Event.reset).step
            (Event.settle i (Settlement.subscription r))).state.step = Step.subscription) := by
  rw [step_reset]
  refine ⟨rfl, rfl, rfl, ?_, ?_, ?_, ?_, ?_, ?_⟩
  · intro snap b h
    simp [Session.step, h, resume]
  · intro snap err h
    simp [Session.step, h, resume]
  · intro slots h
    simp [Session.step, h, resume]
  · intro err h
    simp [Session.step, h, resume]
  · intro info h
    simp [Session.step, h, resume]
  · intro snap b r h
    cases r <;> simp [Session.step, h, resume] <;> split <;> simp

/-- Witness of claim C24 as amended: the confirm button is clicked, the flow is reset,
and `createBooking` resolves. -/
theorem settlement_is_applied_witness :
    (((({ state := selectedState, pending := [], calls := [] } : Session).step
          (Event.confirm 1 (some "token"))).step Event.reset).step
        (Event.settle 0 (Settlement.booking (.ok pendingBooking)))).state.booking
      = some pendingBooking :=
  (settlement_is_applied
    (({ state := selectedState, pending := [], calls := [] } : Session).step
      (Event.confirm 1 (some "token"))) 0).2.2.2.1 selectedState pendingBooking (by decide)

end BookingModal
